import Mathlib

/-!
# Verification of the bevy_mod_raycast intersection engine

Shallow embedding of the core ray-casting code of the repository:

* `src/primitives.rs` — `Ray3d`, `Aabb` slab test, `Triangle`;
* `src/raycast.rs` — the Möller–Trumbore ray/triangle kernel;
* `src/lib.rs` — `ray_mesh_intersection`, `triangle_intersection`,
  `ray_intersection_over_mesh`;
* `src/system_param.rs` — `Raycast::cast_ray` (scene broad-phase);
* `src/octree/mod.rs` — `MeshOctree::leaf_raycast`, `MeshAccessor::get_triangle`.

Modelling conventions:

* `f32` values are embedded as exact rationals (`ℚ`); floating-point rounding
  is outside the model (the spec reads "modulo floating-point tolerance").
* Where the source can produce IEEE-754 infinities or NaN (the slab test divides
  by a possibly-zero direction component), we use the four-case type `XF`
  reproducing IEEE comparison/min/max semantics.
* `f32::sqrt` (inside `Vec3::normalize` / `Vec3::length`) has no rational
  counterpart, so functions that normalize are parametrised by a norm oracle
  `nrm : Vec3Q → ℚ`; theorems that depend on normalization carry the oracle's
  defining property (`nrm v * nrm v = dot v v`, `0 < nrm v`) as a hypothesis,
  and witnesses instantiate it on axis-aligned vectors where the norm is
  rational.
* Rust code that can panic (out-of-bounds slice indexing) is embedded in
  `Except Unit`, with `.error ()` marking a panic.
-/

/-- Three-component rational vector, standing in for `glam`'s `Vec3`/`Vec3A`. -/
structure Vec3Q where
  x : ℚ
  y : ℚ
  z : ℚ
deriving DecidableEq, Repr

namespace Vec3Q

def add (a b : Vec3Q) : Vec3Q := ⟨a.x + b.x, a.y + b.y, a.z + b.z⟩

def sub (a b : Vec3Q) : Vec3Q := ⟨a.x - b.x, a.y - b.y, a.z - b.z⟩

def smul (c : ℚ) (v : Vec3Q) : Vec3Q := ⟨c * v.x, c * v.y, c * v.z⟩

def dot (a b : Vec3Q) : ℚ := a.x * b.x + a.y * b.y + a.z * b.z

def cross (a b : Vec3Q) : Vec3Q :=
  ⟨a.y * b.z - a.z * b.y, a.z * b.x - a.x * b.z, a.x * b.y - a.y * b.x⟩

/-- `Vec3::length_squared`. -/
def lengthSq (v : Vec3Q) : ℚ := dot v v

instance : Add Vec3Q := ⟨add⟩
instance : Sub Vec3Q := ⟨sub⟩
instance : Zero Vec3Q := ⟨⟨0, 0, 0⟩⟩

theorem add_def (a b : Vec3Q) : a + b = ⟨a.x + b.x, a.y + b.y, a.z + b.z⟩ := rfl

theorem sub_def (a b : Vec3Q) : a - b = ⟨a.x - b.x, a.y - b.y, a.z - b.z⟩ := rfl

end Vec3Q

/-- `f32::EPSILON`, used as the kernel tolerance `ε` in `raycast.rs`. -/
def epsilonF : ℚ := 1 / 2 ^ 23

/-- The triangle primitive of `primitives.rs`. -/
structure TriangleQ where
  v0 : Vec3Q
  v1 : Vec3Q
  v2 : Vec3Q
deriving DecidableEq, Repr

/-- `Ray3d` of `primitives.rs`: an origin and a direction.  The Rust struct can
only be built through constructors that normalize the direction; the raw record
is embedded here and the constructor separately (`Ray3dQ.mk_normalized`). -/
structure Ray3dQ where
  origin : Vec3Q
  direction : Vec3Q
deriving DecidableEq, Repr

namespace Ray3dQ

/-- `Ray3d::position`: `origin + t * direction`. -/
def position (r : Ray3dQ) (t : ℚ) : Vec3Q := r.origin + Vec3Q.smul t r.direction

/-- `Ray3d::new` normalizes: `direction = v / ‖v‖`.  The norm `n` is passed
explicitly because `sqrt` has no rational counterpart; the intended reading is
`n = ‖v‖`, captured by the hypotheses `n * n = dot v v` and `0 < n` in theorems
about this constructor. -/
def mk_normalized (origin v : Vec3Q) (n : ℚ) : Ray3dQ :=
  ⟨origin, Vec3Q.smul n⁻¹ v⟩

/-- `Ray3d::from_transform` (given the already-extracted translation and the
projected forward point): `origin = translation`, direction obtained by
normalizing `pick_position − translation`.  Feeds through `Ray3d::new`. -/
def from_transform_core (sourceOrigin pickPosition : Vec3Q) (n : ℚ) : Ray3dQ :=
  mk_normalized sourceOrigin (pickPosition - sourceOrigin) n

/-- `Ray3d::from_screenspace` (given the already-unprojected near and far
points): origin is the near point, direction `normalize(far − near)`.  Feeds
through `Ray3d::new`. -/
def from_screenspace_core (near far : Vec3Q) (n : ℚ) : Ray3dQ :=
  mk_normalized near (far - near) n

end Ray3dQ

/-- The `Backfaces` policy of `raycast.rs`. -/
inductive Backfaces where
  | Cull
  | Include
deriving DecidableEq, Repr

/-- The `RayHit` record of `raycast.rs`: kernel distance and barycentric
`(u, v)`. -/
structure RayHitQ where
  distance : ℚ
  uvCoords : ℚ × ℚ
deriving DecidableEq, Repr

/-- `raycast_moller_trumbore` of `raycast.rs`, the Möller–Trumbore
ray/triangle kernel. -/
def raycastMollerTrumbore (ray : Ray3dQ) (triangle : TriangleQ) (backfaceCulling : Backfaces) :
    Option RayHitQ :=
  let vector_v0_to_v1 : Vec3Q := triangle.v1 - triangle.v0
  let vector_v0_to_v2 : Vec3Q := triangle.v2 - triangle.v0
  let p_vec : Vec3Q := ray.direction.cross vector_v0_to_v2
  let determinant : ℚ := vector_v0_to_v1.dot p_vec
  let rejected : Bool :=
    match backfaceCulling with
    | .Cull => decide (determinant < epsilonF)
    | .Include => decide (|determinant| < epsilonF)
  if rejected then none
  else
    let determinant_inverse := determinant⁻¹
    let t_vec : Vec3Q := ray.origin - triangle.v0
    let u := t_vec.dot p_vec * determinant_inverse
    if u < 0 ∨ 1 < u then none
    else
      let q_vec := t_vec.cross vector_v0_to_v1
      let v := ray.direction.dot q_vec * determinant_inverse
      if v < 0 ∨ 1 < u + v then none
      else some ⟨vector_v0_to_v2.dot q_vec * determinant_inverse, (u, v)⟩

section MollerTrumboreSpec

/-- The claim's back-face condition: `Cull` fails when `det < ε`, `Include`
fails when `|det| < ε`. -/
def backfacePasses (det : ℚ) : Backfaces → Prop
  | .Cull => ¬det < epsilonF
  | .Include => ¬|det| < epsilonF

instance (det : ℚ) (bf : Backfaces) : Decidable (backfacePasses det bf) := by
  cases bf <;> simp only [backfacePasses] <;> infer_instance

end MollerTrumboreSpec

/-- **C2.** `raycast_moller_trumbore` returns a hit exactly when the back-face
test passes (`Cull` fails when `det < ε`, `Include` fails when `|det| < ε`),
`u = (t_vec·p)/det ∈ [0, 1]`, `v = (direction·q)/det ≥ 0` and `u + v ≤ 1`;
the returned hit carries distance `t = (e2·q)/det` and barycentrics `(u, v)`,
with `e1 = v1−v0`, `e2 = v2−v0`, `p = direction×e2`, `t_vec = origin−v0`,
`q = t_vec×e1`. -/
theorem moller_trumbore_characterization
    (ray : Ray3dQ) (tri : TriangleQ) (bf : Backfaces) :
    ((raycastMollerTrumbore ray tri bf).isSome ↔
      (backfacePasses ((tri.v1 - tri.v0).dot (ray.direction.cross (tri.v2 - tri.v0))) bf ∧
        0 ≤ (ray.origin - tri.v0).dot (ray.direction.cross (tri.v2 - tri.v0)) /
            ((tri.v1 - tri.v0).dot (ray.direction.cross (tri.v2 - tri.v0))) ∧
        (ray.origin - tri.v0).dot (ray.direction.cross (tri.v2 - tri.v0)) /
            ((tri.v1 - tri.v0).dot (ray.direction.cross (tri.v2 - tri.v0))) ≤ 1 ∧
        0 ≤ ray.direction.dot ((ray.origin - tri.v0).cross (tri.v1 - tri.v0)) /
            ((tri.v1 - tri.v0).dot (ray.direction.cross (tri.v2 - tri.v0))) ∧
        (ray.origin - tri.v0).dot (ray.direction.cross (tri.v2 - tri.v0)) /
            ((tri.v1 - tri.v0).dot (ray.direction.cross (tri.v2 - tri.v0))) +
          ray.direction.dot ((ray.origin - tri.v0).cross (tri.v1 - tri.v0)) /
            ((tri.v1 - tri.v0).dot (ray.direction.cross (tri.v2 - tri.v0))) ≤ 1)) ∧
    ∀ h, raycastMollerTrumbore ray tri bf = some h →
      h.distance = (tri.v2 - tri.v0).dot ((ray.origin - tri.v0).cross (tri.v1 - tri.v0)) /
          ((tri.v1 - tri.v0).dot (ray.direction.cross (tri.v2 - tri.v0))) ∧
      h.uvCoords =
        ((ray.origin - tri.v0).dot (ray.direction.cross (tri.v2 - tri.v0)) /
            ((tri.v1 - tri.v0).dot (ray.direction.cross (tri.v2 - tri.v0))),
          ray.direction.dot ((ray.origin - tri.v0).cross (tri.v1 - tri.v0)) /
            ((tri.v1 - tri.v0).dot (ray.direction.cross (tri.v2 - tri.v0)))) := by
  simp only [raycastMollerTrumbore, backfacePasses, div_eq_mul_inv]
  cases bf <;>
    · split_ifs with h1 h2 h3 <;>
        simp_all [not_or, not_lt, backfacePasses] <;>
        · intros
          first
          | rcases h2 with h | h <;> linarith
          | rcases h3 with h | h <;> obtain ⟨h2a, h2b⟩ := h2 <;> linarith

/-- The triangle of the kernel's own unit test (`raycast.rs`): vertices
`(1,−1,2), (1,2,−1), (1,−1,−1)`. -/
def triUnitTest : TriangleQ := ⟨⟨1, -1, 2⟩, ⟨1, 2, -1⟩, ⟨1, -1, -1⟩⟩

/-- The ray of the kernel's own unit test: origin `(0,0,0)`, direction `+X`. -/
def rayUnitTest : Ray3dQ := ⟨⟨0, 0, 0⟩, ⟨1, 0, 0⟩⟩

/-- Witness for C2: the unit-test ray and triangle produce the hit
`distance = 1`, `uv = (1/3, 1/3)`, and the characterization theorem applies. -/
theorem moller_trumbore_characterization_witness :
    (⟨1, (1/3, 1/3)⟩ : RayHitQ).distance =
      (triUnitTest.v2 - triUnitTest.v0).dot
          ((rayUnitTest.origin - triUnitTest.v0).cross (triUnitTest.v1 - triUnitTest.v0)) /
        ((triUnitTest.v1 - triUnitTest.v0).dot
          (rayUnitTest.direction.cross (triUnitTest.v2 - triUnitTest.v0))) ∧
    (⟨1, (1/3, 1/3)⟩ : RayHitQ).uvCoords =
      ((rayUnitTest.origin - triUnitTest.v0).dot
          (rayUnitTest.direction.cross (triUnitTest.v2 - triUnitTest.v0)) /
        ((triUnitTest.v1 - triUnitTest.v0).dot
          (rayUnitTest.direction.cross (triUnitTest.v2 - triUnitTest.v0))),
        rayUnitTest.direction.dot
          ((rayUnitTest.origin - triUnitTest.v0).cross (triUnitTest.v1 - triUnitTest.v0)) /
        ((triUnitTest.v1 - triUnitTest.v0).dot
          (rayUnitTest.direction.cross (triUnitTest.v2 - triUnitTest.v0)))) :=
  (moller_trumbore_characterization rayUnitTest triUnitTest .Include).2
    ⟨1, (1/3, 1/3)⟩ (by
      norm_num [raycastMollerTrumbore, rayUnitTest, triUnitTest, Vec3Q.sub_def, Vec3Q.dot,
        Vec3Q.cross, epsilonF])

/-!
## Extended float values for the slab test

`Ray3d::intersects_local_aabb` divides by the ray direction componentwise; in
`f32` a zero component produces `±inf` (or NaN when the numerator is also
zero).  `XF` reproduces the IEEE-754 comparison and min/max semantics for the
values that can appear there. -/
inductive XF where
  | nan
  | neginf
  | fin (q : ℚ)
  | posinf
deriving DecidableEq, Repr

namespace XF

/-- IEEE `<`: every comparison involving NaN is false. -/
def blt : XF → XF → Bool
  | nan, _ => false
  | _, nan => false
  | neginf, neginf => false
  | neginf, fin _ => true
  | neginf, posinf => true
  | fin _, neginf => false
  | fin a, fin b => decide (a < b)
  | fin _, posinf => true
  | posinf, _ => false

/-- IEEE `≤`: every comparison involving NaN is false. -/
def ble : XF → XF → Bool
  | nan, _ => false
  | _, nan => false
  | neginf, _ => true
  | fin _, neginf => false
  | fin a, fin b => decide (a ≤ b)
  | fin _, posinf => true
  | posinf, posinf => true
  | posinf, _ => false

/-- `f32::min` (as used componentwise by `Vec3A::min`): ignores a NaN
argument, otherwise the usual minimum. -/
def fmin : XF → XF → XF
  | nan, b => b
  | a, nan => a
  | neginf, _ => neginf
  | _, neginf => neginf
  | posinf, b => b
  | a, posinf => a
  | fin a, fin b => fin (min a b)

/-- `f32::max`: ignores a NaN argument, otherwise the usual maximum. -/
def fmax : XF → XF → XF
  | nan, b => b
  | a, nan => a
  | posinf, _ => posinf
  | _, posinf => posinf
  | neginf, b => b
  | a, neginf => a
  | fin a, fin b => fin (max a b)

/-- IEEE division of two finite values, as in the slab test: a zero
denominator produces `±inf` (or NaN when the numerator is also zero). -/
def slabDiv (num den : ℚ) : XF :=
  if den ≠ 0 then fin (num / den)
  else if 0 < num then posinf
  else if num < 0 then neginf
  else nan

/-- Order embedding of the non-NaN values into `WithBot (WithTop ℚ)`,
used to reason about IEEE comparisons through a genuine linear order. -/
def toW : XF → WithBot (WithTop ℚ)
  | nan => ⊥
  | neginf => ⊥
  | fin q => ((q : WithTop ℚ) : WithBot (WithTop ℚ))
  | posinf => ((⊤ : WithTop ℚ) : WithBot (WithTop ℚ))

theorem toW_inj {a b : XF} (ha : a ≠ nan) (hb : b ≠ nan) (h : toW a = toW b) : a = b := by
  cases a <;> cases b <;> simp_all [toW] <;>
    first
    | rfl
    | exact absurd h (by simp [WithBot.coe_eq_coe])

theorem blt_eq_toW {a b : XF} (ha : a ≠ nan) (hb : b ≠ nan) :
    blt a b = decide (toW a < toW b) := by
  cases a <;> cases b <;>
    simp_all [blt, toW, WithBot.bot_lt_iff_ne_bot, WithBot.coe_lt_coe, WithTop.coe_lt_top,
      lt_top_iff_ne_top, ne_eq, ← WithBot.coe_top, WithBot.coe_eq_coe]

theorem ble_eq_toW {a b : XF} (ha : a ≠ nan) (hb : b ≠ nan) :
    ble a b = decide (toW a ≤ toW b) := by
  cases a <;> cases b <;> simp_all [ble, toW]

theorem fmin_ne_nan {a b : XF} (ha : a ≠ nan) (hb : b ≠ nan) : fmin a b ≠ nan := by
  cases a <;> cases b <;> simp_all [fmin]

theorem fmax_ne_nan {a b : XF} (ha : a ≠ nan) (hb : b ≠ nan) : fmax a b ≠ nan := by
  cases a <;> cases b <;> simp_all [fmax]

theorem toW_fmin {a b : XF} (ha : a ≠ nan) (hb : b ≠ nan) :
    toW (fmin a b) = min (toW a) (toW b) := by
  cases a <;> cases b <;>
    simp_all [fmin, toW, min_def] <;> split_ifs <;> simp_all <;> omega

theorem toW_fmax {a b : XF} (ha : a ≠ nan) (hb : b ≠ nan) :
    toW (fmax a b) = max (toW a) (toW b) := by
  cases a <;> cases b <;>
    simp_all [fmax, toW, max_def] <;> split_ifs <;> simp_all <;> omega

end XF

/-- Bevy's `Aabb`: center and half-extents. -/
structure AabbQ where
  center : Vec3Q
  halfExtents : Vec3Q
deriving DecidableEq, Repr

namespace AabbQ

/-- `Aabb::min`: `center - half_extents`. -/
def minC (a : AabbQ) : Vec3Q := a.center - a.halfExtents

/-- `Aabb::max`: `center + half_extents`. -/
def maxC (a : AabbQ) : Vec3Q := a.center + a.halfExtents

end AabbQ

/-- `t_0.x` of the slab test: `(aabb.min().x − origin.x) / direction.x`. -/
def slabT0x (ray : Ray3dQ) (aabb : AabbQ) : XF :=
  XF.slabDiv (aabb.minC.x - ray.origin.x) ray.direction.x

/-- `t_0.y` of the slab test. -/
def slabT0y (ray : Ray3dQ) (aabb : AabbQ) : XF :=
  XF.slabDiv (aabb.minC.y - ray.origin.y) ray.direction.y

/-- `t_0.z` of the slab test. -/
def slabT0z (ray : Ray3dQ) (aabb : AabbQ) : XF :=
  XF.slabDiv (aabb.minC.z - ray.origin.z) ray.direction.z

/-- `t_1.x` of the slab test: `(aabb.max().x − origin.x) / direction.x`. -/
def slabT1x (ray : Ray3dQ) (aabb : AabbQ) : XF :=
  XF.slabDiv (aabb.maxC.x - ray.origin.x) ray.direction.x

/-- `t_1.y` of the slab test. -/
def slabT1y (ray : Ray3dQ) (aabb : AabbQ) : XF :=
  XF.slabDiv (aabb.maxC.y - ray.origin.y) ray.direction.y

/-- `t_1.z` of the slab test. -/
def slabT1z (ray : Ray3dQ) (aabb : AabbQ) : XF :=
  XF.slabDiv (aabb.maxC.z - ray.origin.z) ray.direction.z

/-- `t_min.x = min(t_0.x, t_1.x)` of the slab test. -/
def slabTminx (ray : Ray3dQ) (aabb : AabbQ) : XF := XF.fmin (slabT0x ray aabb) (slabT1x ray aabb)

/-- `t_min.y` of the slab test. -/
def slabTminy (ray : Ray3dQ) (aabb : AabbQ) : XF := XF.fmin (slabT0y ray aabb) (slabT1y ray aabb)

/-- `t_min.z` of the slab test. -/
def slabTminz (ray : Ray3dQ) (aabb : AabbQ) : XF := XF.fmin (slabT0z ray aabb) (slabT1z ray aabb)

/-- `t_max.x = max(t_0.x, t_1.x)` of the slab test. -/
def slabTmaxx (ray : Ray3dQ) (aabb : AabbQ) : XF := XF.fmax (slabT0x ray aabb) (slabT1x ray aabb)

/-- `t_max.y` of the slab test. -/
def slabTmaxy (ray : Ray3dQ) (aabb : AabbQ) : XF := XF.fmax (slabT0y ray aabb) (slabT1y ray aabb)

/-- `t_max.z` of the slab test. -/
def slabTmaxz (ray : Ray3dQ) (aabb : AabbQ) : XF := XF.fmax (slabT0z ray aabb) (slabT1z ray aabb)

/-- `Ray3d::intersects_local_aabb` of `primitives.rs`: the slab method, staged
axis by axis exactly as in the source.  The componentwise divisions
`(aabb.min − origin) / direction` follow IEEE-754 semantics via `XF`. -/
def intersectsLocalAabb (ray : Ray3dQ) (aabb : AabbQ) : Option (XF × XF) :=
  let t_min_x := slabTminx ray aabb
  let t_min_y := slabTminy ray aabb
  let t_min_z := slabTminz ray aabb
  let t_max_x := slabTmaxx ray aabb
  let t_max_y := slabTmaxy ray aabb
  let t_max_z := slabTmaxz ray aabb
  let hit_near := t_min_x
  let hit_far := t_max_x
  if XF.blt t_max_y hit_near || XF.blt hit_far t_min_y then none
  else
    let hit_near := if XF.blt hit_near t_min_y then t_min_y else hit_near
    let hit_far := if XF.blt t_max_y hit_far then t_max_y else hit_far
    if XF.blt t_max_z hit_near || XF.blt hit_far t_min_z then none
    else
      let hit_near := if XF.blt hit_near t_min_z then t_min_z else hit_near
      let hit_far := if XF.blt t_max_z hit_far then t_max_z else hit_far
      some (hit_near, hit_far)

/-- `max(t_min)` over the three axes (the claim's `near`). -/
def slabMaxTmin (ray : Ray3dQ) (aabb : AabbQ) : XF :=
  XF.fmax (XF.fmax (slabTminx ray aabb) (slabTminy ray aabb)) (slabTminz ray aabb)

/-- `min(t_max)` over the three axes (the claim's `far`). -/
def slabMinTmax (ray : Ray3dQ) (aabb : AabbQ) : XF :=
  XF.fmin (XF.fmin (slabTmaxx ray aabb) (slabTmaxy ray aabb)) (slabTmaxz ray aabb)

/-- None of the six slab divisions is NaN; rules out the `0/0` corner where the
ray origin sits exactly on a slab plane of an axis the ray is parallel to. -/
def slabNoNan (ray : Ray3dQ) (aabb : AabbQ) : Prop :=
  slabT0x ray aabb ≠ XF.nan ∧ slabT0y ray aabb ≠ XF.nan ∧ slabT0z ray aabb ≠ XF.nan ∧
  slabT1x ray aabb ≠ XF.nan ∧ slabT1y ray aabb ≠ XF.nan ∧ slabT1z ray aabb ≠ XF.nan

section SlabCharacterization

variable {α : Type} [LinearOrder α]

/-- The staged slab algorithm over an honest linear order, mirroring
`intersects_local_aabb` once all comparisons are NaN-free. -/
def stagedSlab (nx Nx ny Ny nz Nz : α) : Option (α × α) :=
  if Ny < nx ∨ Nx < ny then none
  else
    let hit_near := if nx < ny then ny else nx
    let hit_far := if Ny < Nx then Ny else Nx
    if Nz < hit_near ∨ hit_far < nz then none
    else
      let hit_near := if hit_near < nz then nz else hit_near
      let hit_far := if Nz < hit_far then Nz else hit_far
      some (hit_near, hit_far)

theorem ite_lt_eq_max (a b : α) : (if a < b then b else a) = max a b := by
  rcases lt_or_le a b with h | h
  · simp [h, max_eq_right h.le]
  · simp [not_lt.mpr h, max_eq_left h]

theorem ite_lt_eq_min (a b : α) : (if a < b then a else b) = min a b := by
  rcases lt_or_le a b with h | h
  · simp [h, min_eq_left h.le]
  · simp [not_lt.mpr h, min_eq_right h]

/-- The staged slab test succeeds iff `max t_min ≤ min t_max`, and then
returns exactly `(max t_min, min t_max)`. -/
theorem stagedSlab_eq (nx Nx ny Ny nz Nz : α)
    (hx : nx ≤ Nx) (hy : ny ≤ Ny) (hz : nz ≤ Nz) :
    stagedSlab nx Nx ny Ny nz Nz =
      if max (max nx ny) nz ≤ min (min Nx Ny) Nz then
        some (max (max nx ny) nz, min (min Nx Ny) Nz)
      else none := by
  have hiff : max (max nx ny) nz ≤ min (min Nx Ny) Nz ↔
      (nx ≤ Ny ∧ ny ≤ Nx ∧ nx ≤ Nz ∧ ny ≤ Nz ∧ nz ≤ Nx ∧ nz ≤ Ny) := by
    simp only [max_le_iff, le_min_iff]
    constructor
    · intro h
      tauto
    · intro h
      tauto
  rcases le_or_lt (max (max nx ny) nz) (min (min Nx Ny) Nz) with H | H
  · obtain ⟨hxy, hyx, hxz, hyz, hzx, hzy⟩ := hiff.mp H
    rw [if_pos H]
    unfold stagedSlab
    rw [if_neg (by push_neg; exact ⟨hxy, hyx⟩)]
    simp only [ite_lt_eq_max, ite_lt_eq_min]
    rw [if_neg (by
      push_neg
      refine ⟨by simp only [max_le_iff]; exact ⟨hxz, hyz⟩, ?_⟩
      simp only [le_min_iff]; exact ⟨hzy, hzx⟩)]
    rw [min_comm Ny Nx, min_comm Nz (min Nx Ny)]
  · rw [if_neg (not_le.mpr H)]
    unfold stagedSlab
    by_cases hc1 : Ny < nx ∨ Nx < ny
    · rw [if_pos hc1]
    · rw [if_neg hc1]
      push_neg at hc1
      simp only [ite_lt_eq_max, ite_lt_eq_min]
      rw [if_pos]
      have : ¬(nx ≤ Ny ∧ ny ≤ Nx ∧ nx ≤ Nz ∧ ny ≤ Nz ∧ nz ≤ Nx ∧ nz ≤ Ny) :=
        fun hcontra => absurd (hiff.mpr hcontra) (not_le.mpr H)
    
      rcases not_and_or.mp this with h | h
      · exact absurd hc1.1 h
      rcases not_and_or.mp h with h | h
      · exact absurd hc1.2 h
      rcases not_and_or.mp h with h | h
      · exact Or.inl (lt_max_iff.mpr (Or.inl (not_le.mp h)))
      rcases not_and_or.mp h with h | h
      · exact Or.inl (lt_max_iff.mpr (Or.inr (not_le.mp h)))
      rcases not_and_or.mp h with h | h
      · exact Or.inr (by rw [min_comm Ny Nx]; exact min_lt_iff.mpr (Or.inl (not_le.mp h)))
      · exact Or.inr (by rw [min_comm Ny Nx]; exact min_lt_iff.mpr (Or.inr (not_le.mp h)))

end SlabCharacterization

section SlabClosedForm

theorem XF.blt_ite_fmax {a b : XF} (ha : a ≠ XF.nan) (hb : b ≠ XF.nan) :
    (if XF.blt a b then b else a) = XF.fmax a b := by
  cases a <;> cases b <;>
    simp_all [XF.blt, XF.fmax, decide_eq_true_eq] <;>
    rw [← apply_ite XF.fin, ite_lt_eq_max]

theorem XF.blt_ite_fmin {a b : XF} (ha : a ≠ XF.nan) (hb : b ≠ XF.nan) :
    (if XF.blt a b then a else b) = XF.fmin a b := by
  cases a <;> cases b <;>
    simp_all [XF.blt, XF.fmin, decide_eq_true_eq] <;>
    rw [← apply_ite XF.fin, ite_lt_eq_min]

theorem XF.fmin_comm (a b : XF) : XF.fmin a b = XF.fmin b a := by
  cases a <;> cases b <;> simp [XF.fmin, min_comm]

theorem XF.fmax_comm (a b : XF) : XF.fmax a b = XF.fmax b a := by
  cases a <;> cases b <;> simp [XF.fmax, max_comm]

theorem slab_conds_iff {α : Type} [LinearOrder α] {nx Nx ny Ny nz Nz : α}
    (hx : nx ≤ Nx) (hy : ny ≤ Ny) (hz : nz ≤ Nz) :
    (¬(Ny < nx ∨ Nx < ny) ∧ ¬(Nz < max nx ny ∨ min Nx Ny < nz)) ↔
      max (max nx ny) nz ≤ min (min Nx Ny) Nz := by
  simp only [not_or, not_lt, max_le_iff, le_min_iff, lt_max_iff, min_lt_iff]
  constructor
  · intro h
    tauto
  · intro h
    tauto

/-- The NaN-free staged slab computation over `XF`, as it appears inside
`intersects_local_aabb`, equals the closed form `(max t_min, min t_max)`
guarded by `max t_min ≤ min t_max`. -/
theorem xf_staged_eq {nx Nx ny Ny nz Nz : XF}
    (hnx : nx ≠ XF.nan) (hny : ny ≠ XF.nan) (hnz : nz ≠ XF.nan)
    (hNx : Nx ≠ XF.nan) (hNy : Ny ≠ XF.nan) (hNz : Nz ≠ XF.nan)
    (hx : XF.ble nx Nx = true) (hy : XF.ble ny Ny = true) (hz : XF.ble nz Nz = true) :
    (if XF.blt Ny nx || XF.blt Nx ny then none
     else
       if XF.blt Nz (if XF.blt nx ny then ny else nx) ||
           XF.blt (if XF.blt Ny Nx then Ny else Nx) nz then none
       else
         some
           (if XF.blt (if XF.blt nx ny then ny else nx) nz then nz
            else if XF.blt nx ny then ny else nx,
            if XF.blt Nz (if XF.blt Ny Nx then Ny else Nx) then Nz
            else if XF.blt Ny Nx then Ny else Nx)) =
      if XF.ble (XF.fmax (XF.fmax nx ny) nz) (XF.fmin (XF.fmin Nx Ny) Nz) = true then
        some (XF.fmax (XF.fmax nx ny) nz, XF.fmin (XF.fmin Nx Ny) Nz)
      else none := by
  have hmaxnxny := XF.fmax_ne_nan hnx hny
  have hminNyNx := XF.fmin_ne_nan hNy hNx
  have hminNxNy := XF.fmin_ne_nan hNx hNy
  have hmax3 := XF.fmax_ne_nan hmaxnxny hnz
  have hmin3 := XF.fmin_ne_nan hminNxNy hNz
  rw [XF.blt_ite_fmax hnx hny, XF.blt_ite_fmin hNy hNx,
    XF.blt_ite_fmax hmaxnxny hnz, XF.blt_ite_fmin hNz hminNyNx,
    XF.fmin_comm Ny Nx, XF.fmin_comm Nz (XF.fmin Nx Ny)]
  rw [XF.blt_eq_toW hNy hnx, XF.blt_eq_toW hNx hny,
    XF.blt_eq_toW hNz hmaxnxny, XF.blt_eq_toW hminNxNy hnz,
    XF.ble_eq_toW hmax3 hmin3]
  rw [XF.ble_eq_toW hnx hNx] at hx
  rw [XF.ble_eq_toW hny hNy] at hy
  rw [XF.ble_eq_toW hnz hNz] at hz
  rw [decide_eq_true_eq] at hx hy hz
  simp only [XF.toW_fmax hmaxnxny hnz, XF.toW_fmin hminNxNy hNz, XF.toW_fmax hnx hny,
    XF.toW_fmin hNx hNy, Bool.or_eq_true, decide_eq_true_eq]
  by_cases H : max (max (XF.toW nx) (XF.toW ny)) (XF.toW nz) ≤
      min (min (XF.toW Nx) (XF.toW Ny)) (XF.toW Nz)
  · obtain ⟨hC1, hC2⟩ := (slab_conds_iff hx hy hz).mpr H
    rw [if_neg hC1, if_neg hC2, if_pos H]
  · rw [if_neg H]
    have hcontra : ¬(¬(XF.toW Ny < XF.toW nx ∨ XF.toW Nx < XF.toW ny) ∧
        ¬(XF.toW Nz < max (XF.toW nx) (XF.toW ny) ∨
          min (XF.toW Nx) (XF.toW Ny) < XF.toW nz)) := by
      intro hcon
      exact H ((slab_conds_iff hx hy hz).mp hcon)
    by_cases hC1 : XF.toW Ny < XF.toW nx ∨ XF.toW Nx < XF.toW ny
    · rw [if_pos hC1]
    · rw [if_neg hC1]
      have hC2 : XF.toW Nz < max (XF.toW nx) (XF.toW ny) ∨
          min (XF.toW Nx) (XF.toW Ny) < XF.toW nz := by
        by_contra hC2
        exact hcontra ⟨hC1, hC2⟩
      rw [if_pos hC2]

end SlabClosedForm

theorem XF.ble_fmin_fmax {a b : XF} (ha : a ≠ XF.nan) (hb : b ≠ XF.nan) :
    XF.ble (XF.fmin a b) (XF.fmax a b) = true := by
  rw [XF.ble_eq_toW (XF.fmin_ne_nan ha hb) (XF.fmax_ne_nan ha hb),
    XF.toW_fmin ha hb, XF.toW_fmax ha hb]
  simp [min_le_max]

/-- NaN-free closed form of the staged slab test: success iff
`max t_min ≤ min t_max`, returning exactly that pair. -/
theorem intersectsLocalAabb_closed (ray : Ray3dQ) (aabb : AabbQ) (h : slabNoNan ray aabb) :
    intersectsLocalAabb ray aabb =
      if XF.ble (slabMaxTmin ray aabb) (slabMinTmax ray aabb) = true then
        some (slabMaxTmin ray aabb, slabMinTmax ray aabb)
      else none := by
  obtain ⟨h0x, h0y, h0z, h1x, h1y, h1z⟩ := h
  have key := xf_staged_eq
    (XF.fmin_ne_nan h0x h1x) (XF.fmin_ne_nan h0y h1y) (XF.fmin_ne_nan h0z h1z)
    (XF.fmax_ne_nan h0x h1x) (XF.fmax_ne_nan h0y h1y) (XF.fmax_ne_nan h0z h1z)
    (XF.ble_fmin_fmax h0x h1x) (XF.ble_fmin_fmax h0y h1y) (XF.ble_fmin_fmax h0z h1z)
  simpa only [intersectsLocalAabb, slabTminx, slabTminy, slabTminz, slabTmaxx, slabTmaxy,
    slabTmaxz, slabMaxTmin, slabMinTmax] using key

/-- The AABB of the spec's broad-phase scenario: `center = (5,0,0)`,
`half_extents = (1,1,1)`. -/
def aabbScenario : AabbQ := ⟨⟨5, 0, 0⟩, ⟨1, 1, 1⟩⟩

/-- **C6, counterexample.**  The claim states `intersects_local_aabb` returns
`Some` iff `max(t_min) ≤ min(t_max)` *and* `t_max ≥ 0`.  The function never
checks `t_max ≥ 0` (that filter lives in the caller, `Raycast::cast_ray`):
for the ray from the origin pointing along `−X` and the scenario AABB, the
slab test returns `Some [−6, −4]` although `min(t_max) = −4 < 0`. -/
theorem intersects_local_aabb_counterexample :
    ¬((intersectsLocalAabb ⟨⟨0, 0, 0⟩, ⟨-1, 0, 0⟩⟩ aabbScenario).isSome = true ↔
      (XF.ble (slabMaxTmin ⟨⟨0, 0, 0⟩, ⟨-1, 0, 0⟩⟩ aabbScenario)
          (slabMinTmax ⟨⟨0, 0, 0⟩, ⟨-1, 0, 0⟩⟩ aabbScenario) = true ∧
        XF.ble (XF.fin 0) (slabMinTmax ⟨⟨0, 0, 0⟩, ⟨-1, 0, 0⟩⟩ aabbScenario) = true)) := by
  intro hiff
  have h2 := hiff.mp (by
    norm_num [intersectsLocalAabb, slabTminx, slabTminy, slabTminz, slabTmaxx, slabTmaxy,
      slabTmaxz, slabT0x, slabT0y, slabT0z, slabT1x, slabT1y, slabT1z, XF.slabDiv, XF.fmin,
      XF.fmax, XF.blt, AabbQ.minC, AabbQ.maxC, Vec3Q.sub_def, Vec3Q.add_def, aabbScenario])
  have h3 := h2.2
  rw [show slabMinTmax ⟨⟨0, 0, 0⟩, ⟨-1, 0, 0⟩⟩ aabbScenario = XF.fin (-4) by
    norm_num [slabMinTmax, slabTmaxx, slabTmaxy, slabTmaxz, slabT0x, slabT0y, slabT0z,
      slabT1x, slabT1y, slabT1z, XF.slabDiv, XF.fmin, XF.fmax, AabbQ.minC, AabbQ.maxC,
      Vec3Q.sub_def, Vec3Q.add_def, aabbScenario]] at h3
  norm_num [XF.ble] at h3

/-- **C6, amended.**  `intersects_local_aabb` (NaN-free inputs) returns
`Some [near, far]` iff `max(t_min) ≤ min(t_max)` — without any `t_max ≥ 0`
check, which is applied by the caller — and in that case `near = max(t_min)`,
`far = min(t_max)`.  The scenario instances hold: the `+X` ray yields
`[4, 6]`, the `+Y` ray yields no hit. -/
theorem intersects_local_aabb_amended :
    (∀ (ray : Ray3dQ) (aabb : AabbQ), slabNoNan ray aabb →
      (((intersectsLocalAabb ray aabb).isSome = true ↔
          XF.ble (slabMaxTmin ray aabb) (slabMinTmax ray aabb) = true) ∧
        ∀ p, intersectsLocalAabb ray aabb = some p →
          p = (slabMaxTmin ray aabb, slabMinTmax ray aabb))) ∧
    intersectsLocalAabb ⟨⟨0, 0, 0⟩, ⟨1, 0, 0⟩⟩ aabbScenario = some (XF.fin 4, XF.fin 6) ∧
    intersectsLocalAabb ⟨⟨0, 0, 0⟩, ⟨0, 1, 0⟩⟩ aabbScenario = none := by
  refine ⟨fun ray aabb h => ?_, ?_, ?_⟩
  · rw [intersectsLocalAabb_closed ray aabb h]
    by_cases hb : XF.ble (slabMaxTmin ray aabb) (slabMinTmax ray aabb) = true
    · rw [if_pos hb]
      exact ⟨by simp [hb], fun p hp => by simpa using hp.symm⟩
    · rw [if_neg hb]
      exact ⟨by simp [hb], fun p hp => by simp at hp⟩
  · norm_num [intersectsLocalAabb, slabTminx, slabTminy, slabTminz, slabTmaxx, slabTmaxy,
      slabTmaxz, slabT0x, slabT0y, slabT0z, slabT1x, slabT1y, slabT1z, XF.slabDiv, XF.fmin,
      XF.fmax, XF.blt, AabbQ.minC, AabbQ.maxC, Vec3Q.sub_def, Vec3Q.add_def, aabbScenario]
  · norm_num [intersectsLocalAabb, slabTminx, slabTminy, slabTminz, slabTmaxx, slabTmaxy,
      slabTmaxz, slabT0x, slabT0y, slabT0z, slabT1x, slabT1y, slabT1z, XF.slabDiv, XF.fmin,
      XF.fmax, XF.blt, AabbQ.minC, AabbQ.maxC, Vec3Q.sub_def, Vec3Q.add_def, aabbScenario]

/-- Witness for the amended C6: at the `+X` scenario ray the general clause
applies (the inputs are NaN-free) and produces `near = 4`, `far = 6`. -/
theorem intersects_local_aabb_amended_witness :
    (intersectsLocalAabb ⟨⟨0, 0, 0⟩, ⟨1, 0, 0⟩⟩ aabbScenario).isSome = true ↔
      XF.ble (slabMaxTmin ⟨⟨0, 0, 0⟩, ⟨1, 0, 0⟩⟩ aabbScenario)
        (slabMinTmax ⟨⟨0, 0, 0⟩, ⟨1, 0, 0⟩⟩ aabbScenario) = true :=
  (intersects_local_aabb_amended.1 ⟨⟨0, 0, 0⟩, ⟨1, 0, 0⟩⟩ aabbScenario (by
    norm_num [slabNoNan, slabT0x, slabT0y, slabT0z, slabT1x, slabT1y, slabT1z, XF.slabDiv,
      AabbQ.minC, AabbQ.maxC, Vec3Q.sub_def, Vec3Q.add_def, aabbScenario]
    exact ⟨by simp, by simp, by simp, by simp⟩)).1

theorem Vec3Q.dot_smul_self (c : ℚ) (v : Vec3Q) :
    Vec3Q.dot (Vec3Q.smul c v) (Vec3Q.smul c v) = c * c * Vec3Q.dot v v := by
  simp only [Vec3Q.smul, Vec3Q.dot]
  ring

/-- **C9.** Every `Ray3d` constructor (`new`, `from_transform`,
`from_screenspace`) normalizes the direction it is given: whenever the raw
direction vector is non-degenerate (its Euclidean norm `n` is positive), the
constructed ray's direction has squared length exactly `1`. -/
theorem ray_constructors_unit_direction (n : ℚ) (hn : 0 < n) :
    (∀ origin v, n * n = Vec3Q.dot v v →
      Vec3Q.lengthSq (Ray3dQ.mk_normalized origin v n).direction = 1) ∧
    (∀ sourceOrigin pickPosition,
      n * n = Vec3Q.dot (pickPosition - sourceOrigin) (pickPosition - sourceOrigin) →
      Vec3Q.lengthSq (Ray3dQ.from_transform_core sourceOrigin pickPosition n).direction = 1) ∧
    (∀ near far, n * n = Vec3Q.dot (far - near) (far - near) →
      Vec3Q.lengthSq (Ray3dQ.from_screenspace_core near far n).direction = 1) := by
  have core : ∀ (origin v : Vec3Q), n * n = Vec3Q.dot v v →
      Vec3Q.lengthSq (Ray3dQ.mk_normalized origin v n).direction = 1 := by
    intro origin v hv
    simp only [Ray3dQ.mk_normalized, Vec3Q.lengthSq, Vec3Q.dot_smul_self, ← hv]
    field_simp
  exact ⟨core, fun s p h => core s (p - s) h, fun a b h => core a (b - a) h⟩

/-- Witness for C9: the vector `(3,4,0)` has norm `5`; `Ray3d::new` turns it
into `(3/5, 4/5, 0)`, of squared length `1`. -/
theorem ray_constructors_unit_direction_witness :
    Vec3Q.lengthSq (Ray3dQ.mk_normalized ⟨0, 0, 0⟩ ⟨3, 4, 0⟩ 5).direction = 1 :=
  (ray_constructors_unit_direction 5 (by norm_num)).1 ⟨0, 0, 0⟩ ⟨3, 4, 0⟩
    (by norm_num [Vec3Q.dot])

/-!
## Mesh intersection driver (`lib.rs`)
-/

/-- glam `Mat4` restricted to its affine action — all that
`ray_mesh_intersection` uses (`transform_point3` / `transform_vector3` /
`transform_point3a`).  `r0, r1, r2` are the rows of the 3×3 linear block,
`t` the translation column. -/
structure Mat4Q where
  r0 : Vec3Q
  r1 : Vec3Q
  r2 : Vec3Q
  t : Vec3Q
deriving DecidableEq, Repr

namespace Mat4Q

/-- `Mat4::transform_vector3`: apply the linear block only. -/
def transformVector3 (M : Mat4Q) (v : Vec3Q) : Vec3Q :=
  ⟨M.r0.dot v, M.r1.dot v, M.r2.dot v⟩

/-- `Mat4::transform_point3`: linear block plus translation. -/
def transformPoint3 (M : Mat4Q) (v : Vec3Q) : Vec3Q :=
  transformVector3 M v + M.t

/-- The identity transform. -/
def identityM : Mat4Q := ⟨⟨1, 0, 0⟩, ⟨0, 1, 0⟩, ⟨0, 0, 1⟩, ⟨0, 0, 0⟩⟩

/-- `Mat4::inverse`, restricted to affine matrices: adjugate-based inverse of
the linear block and the corresponding translation. -/
def inverse (M : Mat4Q) : Mat4Q :=
  let c0 := M.r1.cross M.r2
  let c1 := M.r2.cross M.r0
  let c2 := M.r0.cross M.r1
  let invDet := (M.r0.dot (M.r1.cross M.r2))⁻¹
  let s0 : Vec3Q := ⟨invDet * c0.x, invDet * c1.x, invDet * c2.x⟩
  let s1 : Vec3Q := ⟨invDet * c0.y, invDet * c1.y, invDet * c2.y⟩
  let s2 : Vec3Q := ⟨invDet * c0.z, invDet * c1.z, invDet * c2.z⟩
  ⟨s0, s1, s2, ⟨-(s0.dot M.t), -(s1.dot M.t), -(s2.dot M.t)⟩⟩

end Mat4Q

/-- The `IntersectionData` record of `primitives.rs`. -/
structure IntersectionDataQ where
  position : Vec3Q
  normal : Vec3Q
  distance : ℚ
  triangle : Option TriangleQ
deriving DecidableEq, Repr

/-- `f32::MAX`, the initial value of `min_pick_distance`. -/
def f32MAX : ℚ := (2 - (1 / 2 ^ 23)) * 2 ^ 127

/-- `triangle_intersection` of `lib.rs`: vertex-proximity early rejection,
Möller–Trumbore kernel, `0 < t < max_distance` acceptance, and normal
computation (barycentric interpolation when vertex normals exist, normalized
geometric normal otherwise — the latter through the norm oracle `nrm`). -/
def triangleIntersection (nrm : Vec3Q → ℚ) (triVertices : TriangleQ)
    (triNormals : Option (Vec3Q × Vec3Q × Vec3Q)) (maxDistance : ℚ) (ray : Ray3dQ)
    (backfaceCulling : Backfaces) : Option IntersectionDataQ :=
  if Vec3Q.lengthSq (triVertices.v0 - ray.origin) < maxDistance ^ 2 ∨
      Vec3Q.lengthSq (triVertices.v1 - ray.origin) < maxDistance ^ 2 ∨
      Vec3Q.lengthSq (triVertices.v2 - ray.origin) < maxDistance ^ 2 then
    match raycastMollerTrumbore ray triVertices backfaceCulling with
    | some rayHit =>
      if 0 < rayHit.distance ∧ rayHit.distance < maxDistance then
        let position := ray.position rayHit.distance
        let normal : Vec3Q :=
          match triNormals with
          | some (n0, n1, n2) =>
            let u := rayHit.uvCoords.1
            let v := rayHit.uvCoords.2
            let w := 1 - u - v
            Vec3Q.smul u n1 + Vec3Q.smul v n2 + Vec3Q.smul w n0
          | none =>
            let c := (triVertices.v1 - triVertices.v0).cross (triVertices.v2 - triVertices.v0)
            Vec3Q.smul (nrm c)⁻¹ c
        some ⟨position, normal, rayHit.distance, some triVertices⟩
      else none
    | none => none
  else none

/-- Slice indexing `l[i]`: out of bounds is a Rust panic. -/
def idxPanic {α : Type} (l : List α) (i : ℕ) : Except Unit α :=
  match l.get? i with
  | some a => .ok a
  | none => .error ()

/-- Exact chunking of a list into triples; `none` when the length is not a
multiple of three. -/
def chunk3 {α : Type} : List α → Option (List (α × α × α))
  | [] => some []
  | a :: b :: c :: rest => (chunk3 rest).map (fun l => (a, b, c) :: l)
  | _ => none

/-- `chunks(3)` followed by unchecked accesses `chunk[0..3]`, as in the
non-indexed branch of `ray_mesh_intersection`: a trailing chunk of fewer than
three elements panics. -/
def chunk3Panic {α : Type} : List α → Except Unit (List (α × α × α))
  | [] => .ok []
  | a :: b :: c :: rest => (chunk3Panic rest).map (fun l => (a, b, c) :: l)
  | _ => .error ()

/-- The triangle data consumed per loop iteration: vertices and optional
vertex normals. -/
def TriData : Type := TriangleQ × Option (Vec3Q × Vec3Q × Vec3Q)

/-- Fetch one indexed triangle: `vertex_positions[index[3i+k]]` (and the same
dereference into the normal buffer), panicking on any out-of-range index. -/
def fetchTriIndexed (vertexPositions : List Vec3Q) (vertexNormals : Option (List Vec3Q))
    (triple : ℕ × ℕ × ℕ) : Except Unit TriData := do
  let v0 ← idxPanic vertexPositions triple.1
  let v1 ← idxPanic vertexPositions triple.2.1
  let v2 ← idxPanic vertexPositions triple.2.2
  let norms ← match vertexNormals with
    | none => Except.ok none
    | some ns => do
      let n0 ← idxPanic ns triple.1
      let n1 ← idxPanic ns triple.2.1
      let n2 ← idxPanic ns triple.2.2
      Except.ok (some (n0, n1, n2))
  Except.ok ((⟨v0, v1, v2⟩, norms) : TriData)

/-- Indexed triangle fetch of `ray_mesh_intersection` over all index
triples. -/
def buildTrisIndexed (vertexPositions : List Vec3Q) (vertexNormals : Option (List Vec3Q)) :
    List (ℕ × ℕ × ℕ) → Except Unit (List TriData)
  | [] => Except.ok []
  | triple :: rest => do
    let td ← fetchTriIndexed vertexPositions vertexNormals triple
    let tail ← buildTrisIndexed vertexPositions vertexNormals rest
    Except.ok (td :: tail)

/-- Non-indexed triangle fetch of `ray_mesh_intersection`: vertices in chunks
of three; when a normal buffer exists the source reads `normals[0]`,
`normals[1]`, `normals[2]` for *every* chunk (not the chunk's own normals). -/
def buildTrisNonIndexed (vertexPositions : List Vec3Q)
    (vertexNormals : Option (List Vec3Q)) : Except Unit (List TriData) := do
  let chunks ← chunk3Panic vertexPositions
  match chunks with
  | [] => Except.ok []
  | _ :: _ => do
    let norms ← match vertexNormals with
      | none => Except.ok none
      | some ns => do
        let n0 ← idxPanic ns 0
        let n1 ← idxPanic ns 1
        let n2 ← idxPanic ns 2
        Except.ok (some (n0, n1, n2))
    Except.ok
      (chunks.map (fun triple => ((⟨triple.1, triple.2.1, triple.2.2⟩, norms) : TriData)))

/-- Lift a mesh-space hit into the world-space `IntersectionData`, as built in
the loop body of `ray_mesh_intersection`; the stored distance is the length of
the transformed `direction * t` (via the norm oracle). -/
def worldIntersection (nrm : Vec3Q → ℚ) (meshToWorld : Mat4Q) (meshSpaceRay : Ray3dQ)
    (i : IntersectionDataQ) : IntersectionDataQ :=
  ⟨meshToWorld.transformPoint3 i.position,
    meshToWorld.transformVector3 i.normal,
    nrm (meshToWorld.transformVector3 (Vec3Q.smul i.distance meshSpaceRay.direction)),
    i.triangle.map (fun tri =>
      ⟨meshToWorld.transformPoint3 tri.v0, meshToWorld.transformPoint3 tri.v1,
        meshToWorld.transformPoint3 tri.v2⟩)⟩

/-- One iteration of the `ray_mesh_intersection` loop: state is
`(min_pick_distance, pick_intersection)`. -/
def rayMeshStep (nrm : Vec3Q → ℚ) (meshToWorld : Mat4Q) (meshSpaceRay : Ray3dQ)
    (backfaceCulling : Backfaces) (st : ℚ × Option IntersectionDataQ) (tri : TriData) :
    ℚ × Option IntersectionDataQ :=
  match triangleIntersection nrm tri.1 tri.2 st.1 meshSpaceRay backfaceCulling with
  | some i => (i.distance, some (worldIntersection nrm meshToWorld meshSpaceRay i))
  | none => st

/-- The full triangle loop of `ray_mesh_intersection`, starting from
`min_pick_distance = f32::MAX` and no hit. -/
def rayMeshIntersectionCore (nrm : Vec3Q → ℚ) (meshToWorld : Mat4Q) (meshSpaceRay : Ray3dQ)
    (backfaceCulling : Backfaces) (tris : List TriData) : ℚ × Option IntersectionDataQ :=
  tris.foldl (rayMeshStep nrm meshToWorld meshSpaceRay backfaceCulling) (f32MAX, none)

/-- The mesh-space ray of `ray_mesh_intersection`: the world ray transformed
by the inverse matrix and re-normalized by `Ray3d::new`. -/
def meshSpaceRayOf (nrm : Vec3Q → ℚ) (meshToWorld : Mat4Q) (pickRay : Ray3dQ) : Ray3dQ :=
  let worldToMesh := meshToWorld.inverse
  Ray3dQ.mk_normalized (worldToMesh.transformPoint3 pickRay.origin)
    (worldToMesh.transformVector3 pickRay.direction)
    (nrm (worldToMesh.transformVector3 pickRay.direction))

/-- `ray_mesh_intersection` of `lib.rs`.  `.error ()` models a Rust panic
(out-of-range index into the position/normal buffers, or a trailing
non-indexed chunk shorter than three vertices); an index list whose length is
not a multiple of three is dropped with a warning (`.ok none`). -/
def rayMeshIntersection (nrm : Vec3Q → ℚ) (meshToWorld : Mat4Q)
    (vertexPositions : List Vec3Q) (vertexNormals : Option (List Vec3Q)) (pickRay : Ray3dQ)
    (indices : Option (List ℕ)) (backfaceCulling : Backfaces) :
    Except Unit (Option IntersectionDataQ) :=
  let meshSpaceRay := meshSpaceRayOf nrm meshToWorld pickRay
  match indices with
  | some idx =>
    if idx.length % 3 ≠ 0 then Except.ok none
    else
      match chunk3 idx with
      | none => Except.ok none
      | some triples => do
        let tris ← buildTrisIndexed vertexPositions vertexNormals triples
        Except.ok (rayMeshIntersectionCore nrm meshToWorld meshSpaceRay backfaceCulling tris).2
  | none => do
    let tris ← buildTrisNonIndexed vertexPositions vertexNormals
    Except.ok (rayMeshIntersectionCore nrm meshToWorld meshSpaceRay backfaceCulling tris).2

/-- The slice of a bevy `Mesh` that `ray_intersection_over_mesh` reads. -/
structure MeshQ where
  isTriangleList : Bool
  positions : List Vec3Q
  normals : Option (List Vec3Q)
  indices : Option (List ℕ)

/-- `ray_intersection_over_mesh` of `lib.rs`: reject non-triangle-list
topology (error log, no hit), otherwise run `ray_mesh_intersection`. -/
def rayIntersectionOverMesh (nrm : Vec3Q → ℚ) (mesh : MeshQ) (meshToWorld : Mat4Q)
    (ray : Ray3dQ) (backfaceCulling : Backfaces) : Except Unit (Option IntersectionDataQ) :=
  if mesh.isTriangleList = false then Except.ok none
  else rayMeshIntersection nrm meshToWorld mesh.positions mesh.normals ray mesh.indices
    backfaceCulling

/-- A concrete norm oracle, exact on axis-aligned vectors (every concrete
vector normalized in the witnesses and counterexamples is axis-aligned). -/
def axisNorm (v : Vec3Q) : ℚ := |v.x| + |v.y| + |v.z|

/-!
## Properties of the `ray_mesh_intersection` loop
-/

/-- The early-rejection proximity condition of `triangle_intersection`: some
vertex lies strictly within `d` (squared) of the ray origin. -/
def proxAt (ray : Ray3dQ) (tri : TriangleQ) (d : ℚ) : Prop :=
  Vec3Q.lengthSq (tri.v0 - ray.origin) < d ^ 2 ∨
  Vec3Q.lengthSq (tri.v1 - ray.origin) < d ^ 2 ∨
  Vec3Q.lengthSq (tri.v2 - ray.origin) < d ^ 2

instance (ray : Ray3dQ) (tri : TriangleQ) (d : ℚ) : Decidable (proxAt ray tri d) := by
  unfold proxAt
  infer_instance

theorem triangleIntersection_some_iff (nrm : Vec3Q → ℚ) (tri : TriangleQ)
    (norms : Option (Vec3Q × Vec3Q × Vec3Q)) (maxD : ℚ) (ray : Ray3dQ) (bf : Backfaces)
    (i : IntersectionDataQ) (h : triangleIntersection nrm tri norms maxD ray bf = some i) :
    (∃ hh, raycastMollerTrumbore ray tri bf = some hh ∧ hh.distance = i.distance) ∧
      0 < i.distance ∧ i.distance < maxD ∧ proxAt ray tri maxD := by
  unfold triangleIntersection at h
  split_ifs at h with hprox
  cases hker : raycastMollerTrumbore ray tri bf with
  | none => rw [hker] at h; simp at h
  | some hh =>
    rw [hker] at h
    simp only at h
    split_ifs at h with hd
    obtain ⟨hd0, hdm⟩ := hd
    have hdist : i.distance = hh.distance := by
      cases h
      rfl
    exact ⟨⟨hh, rfl, hdist.symm⟩, hdist ▸ hd0, hdist ▸ hdm, hprox⟩

theorem triangleIntersection_none_of_kernel (nrm : Vec3Q → ℚ) (tri : TriangleQ)
    (norms : Option (Vec3Q × Vec3Q × Vec3Q)) (maxD : ℚ) (ray : Ray3dQ) (bf : Backfaces)
    (hh : RayHitQ) (hker : raycastMollerTrumbore ray tri bf = some hh)
    (hpos : 0 < hh.distance) (hprox : proxAt ray tri maxD)
    (hnone : triangleIntersection nrm tri norms maxD ray bf = none) :
    maxD ≤ hh.distance := by
  unfold triangleIntersection at hnone
  split_ifs at hnone with hp
  · rw [hker] at hnone
    simp only at hnone
    split_ifs at hnone with hd
    rw [not_and_or] at hd
    rcases hd with hd | hd
    · exact absurd hpos hd
    · exact not_lt.mp hd
  · exact absurd hprox hp

theorem rayMeshFold_fst_le (nrm : Vec3Q → ℚ) (M : Mat4Q) (ray : Ray3dQ) (bf : Backfaces) :
    ∀ (tris : List TriData) (st : ℚ × Option IntersectionDataQ),
      (tris.foldl (rayMeshStep nrm M ray bf) st).1 ≤ st.1 := by
  intro tris
  induction tris with
  | nil => intro st; exact le_refl _
  | cons td rest ih =>
    intro st
    refine le_trans (ih (rayMeshStep nrm M ray bf st td)) ?_
    unfold rayMeshStep
    cases hti : triangleIntersection nrm td.1 td.2 st.1 ray bf with
    | none => exact le_refl _
    | some i =>
      have := (triangleIntersection_some_iff nrm td.1 td.2 st.1 ray bf i hti).2.2.1
      simp only
      exact this.le

theorem rayMeshFold_fst_pos (nrm : Vec3Q → ℚ) (M : Mat4Q) (ray : Ray3dQ) (bf : Backfaces) :
    ∀ (tris : List TriData) (st : ℚ × Option IntersectionDataQ), 0 < st.1 →
      0 < (tris.foldl (rayMeshStep nrm M ray bf) st).1 := by
  intro tris
  induction tris with
  | nil => intro st h; exact h
  | cons td rest ih =>
    intro st h
    refine ih _ ?_
    unfold rayMeshStep
    cases hti : triangleIntersection nrm td.1 td.2 st.1 ray bf with
    | none => exact h
    | some i =>
      exact (triangleIntersection_some_iff nrm td.1 td.2 st.1 ray bf i hti).2.1

theorem rayMeshFold_nearest (nrm : Vec3Q → ℚ) (M : Mat4Q) (ray : Ray3dQ) (bf : Backfaces) :
    ∀ (tris : List TriData) (st : ℚ × Option IntersectionDataQ), 0 < st.1 →
      ∀ td ∈ tris,
        proxAt ray td.1 (tris.foldl (rayMeshStep nrm M ray bf) st).1 →
        ∀ hh, raycastMollerTrumbore ray td.1 bf = some hh → 0 < hh.distance →
          (tris.foldl (rayMeshStep nrm M ray bf) st).1 ≤ hh.distance := by
  intro tris
  induction tris with
  | nil => intro st _ td htd; exact absurd htd (List.not_mem_nil td)
  | cons td0 rest ih =>
    intro st hst td htd hprox hh hker hpos
    have hstep_pos : 0 < (rayMeshStep nrm M ray bf st td0).1 := by
      unfold rayMeshStep
      cases hti : triangleIntersection nrm td0.1 td0.2 st.1 ray bf with
      | none => exact hst
      | some i => exact (triangleIntersection_some_iff nrm td0.1 td0.2 st.1 ray bf i hti).2.1
    rcases List.mem_cons.mp htd with heq | hmem
    · subst heq
      simp only [List.foldl_cons] at hprox ⊢
      cases hti : triangleIntersection nrm td.1 td.2 st.1 ray bf with
      | some i =>
        obtain ⟨⟨hh2, hker2, hdist2⟩, hpos2, _, _⟩ :=
          triangleIntersection_some_iff nrm td.1 td.2 st.1 ray bf i hti
        rw [hker] at hker2
        have : hh = hh2 := by cases hker2; rfl
        subst this
        have hfoldle := rayMeshFold_fst_le nrm M ray bf rest (rayMeshStep nrm M ray bf st td)
        have hstep1 : (rayMeshStep nrm M ray bf st td).1 = i.distance := by
          unfold rayMeshStep
          rw [hti]
        rw [hstep1] at hfoldle
        rw [hdist2]
        exact hfoldle
      | none =>
        -- the triangle was rejected at threshold `st.1`; since the final
        -- distance is below `st.1`, proximity at the final distance implies
        -- proximity at `st.1`, so rejection forces `st.1 ≤ hh.distance`.
        have hfold_le : (rest.foldl (rayMeshStep nrm M ray bf) (rayMeshStep nrm M ray bf st td)).1
            ≤ st.1 := by
          refine le_trans (rayMeshFold_fst_le nrm M ray bf rest _) ?_
          unfold rayMeshStep
          rw [hti]
        have hfold_pos : 0 < (rest.foldl (rayMeshStep nrm M ray bf)
            (rayMeshStep nrm M ray bf st td)).1 :=
          rayMeshFold_fst_pos nrm M ray bf rest _ hstep_pos
        have hsq : ((rest.foldl (rayMeshStep nrm M ray bf)
            (rayMeshStep nrm M ray bf st td)).1) ^ 2 ≤ st.1 ^ 2 := by
          exact pow_le_pow_left hfold_pos.le hfold_le 2
        have hprox' : proxAt ray td.1 st.1 := by
          unfold proxAt at hprox ⊢
          rcases hprox with hp | hp | hp
          · exact Or.inl (lt_of_lt_of_le hp hsq)
          · exact Or.inr (Or.inl (lt_of_lt_of_le hp hsq))
          · exact Or.inr (Or.inr (lt_of_lt_of_le hp hsq))
        have hst_le := triangleIntersection_none_of_kernel nrm td.1 td.2 st.1 ray bf hh
          hker hpos hprox' hti
        exact le_trans hfold_le hst_le
    · exact ih (rayMeshStep nrm M ray bf st td0) hstep_pos td hmem hprox hh hker hpos

theorem rayMeshFold_some (nrm : Vec3Q → ℚ) (M : Mat4Q) (ray : Ray3dQ) (bf : Backfaces) :
    ∀ (tris : List TriData) (st : ℚ × Option IntersectionDataQ) (i : IntersectionDataQ),
      (tris.foldl (rayMeshStep nrm M ray bf) st).2 = some i →
      (tris.foldl (rayMeshStep nrm M ray bf) st) = st ∨
        ∃ td ∈ tris, ∃ hh, raycastMollerTrumbore ray td.1 bf = some hh ∧
          hh.distance = (tris.foldl (rayMeshStep nrm M ray bf) st).1 ∧
          0 < (tris.foldl (rayMeshStep nrm M ray bf) st).1 := by
  intro tris
  induction tris with
  | nil => intro st i _; exact Or.inl rfl
  | cons td0 rest ih =>
    intro st i hsome
    simp only [List.foldl_cons] at hsome ⊢
    rcases ih (rayMeshStep nrm M ray bf st td0) i hsome with heq | ⟨td, htd, hh, hker, hdist, hpos⟩
    · rw [heq]
      unfold rayMeshStep
      cases hti : triangleIntersection nrm td0.1 td0.2 st.1 ray bf with
      | none => exact Or.inl rfl
      | some j =>
        obtain ⟨⟨hh2, hker2, hdist2⟩, hpos2, _, _⟩ :=
          triangleIntersection_some_iff nrm td0.1 td0.2 st.1 ray bf j hti
        refine Or.inr ⟨td0, List.mem_cons_self td0 rest, hh2, hker2, ?_, ?_⟩
        · simp only [hdist2]
        · simpa using hpos2
    · exact Or.inr ⟨td, List.mem_cons_of_mem td0 htd, hh, hker, hdist, hpos⟩

theorem rayMeshFold_none (nrm : Vec3Q → ℚ) (M : Mat4Q) (ray : Ray3dQ) (bf : Backfaces) :
    ∀ (tris : List TriData) (st : ℚ × Option IntersectionDataQ),
      (∀ td ∈ tris, ∀ hh, raycastMollerTrumbore ray td.1 bf = some hh → hh.distance ≤ 0) →
      tris.foldl (rayMeshStep nrm M ray bf) st = st := by
  intro tris
  induction tris with
  | nil => intro st _; rfl
  | cons td0 rest ih =>
    intro st hnopos
    simp only [List.foldl_cons]
    have hstep : rayMeshStep nrm M ray bf st td0 = st := by
      unfold rayMeshStep
      cases hti : triangleIntersection nrm td0.1 td0.2 st.1 ray bf with
      | none => rfl
      | some i =>
        obtain ⟨⟨hh, hker, hdist⟩, hpos, _, _⟩ :=
          triangleIntersection_some_iff nrm td0.1 td0.2 st.1 ray bf i hti
        have := hnopos td0 (List.mem_cons_self td0 rest) hh hker
        rw [hdist] at this
        exact absurd hpos (not_lt.mpr this)
    rw [hstep]
    exact ih st (fun td htd => hnopos td (List.mem_cons_of_mem td0 htd))

/-- The triangle list that `ray_mesh_intersection` iterates over: `.ok none`
when the mesh is dropped for a malformed index-list length, `.error ()` when
fetching panics, `.ok (some tris)` otherwise. -/
def meshTriData (vertexPositions : List Vec3Q) (vertexNormals : Option (List Vec3Q)) :
    Option (List ℕ) → Except Unit (Option (List TriData))
  | some idx =>
    if idx.length % 3 ≠ 0 then Except.ok none
    else
      match chunk3 idx with
      | none => Except.ok none
      | some triples => (buildTrisIndexed vertexPositions vertexNormals triples).map some
  | none => (buildTrisNonIndexed vertexPositions vertexNormals).map some

/-- When the triangle data resolves, `ray_mesh_intersection` is exactly the
fold of `triangle_intersection` over it. -/
theorem rayMeshIntersection_eq_core (nrm : Vec3Q → ℚ) (M : Mat4Q)
    (verts : List Vec3Q) (normals : Option (List Vec3Q)) (ray : Ray3dQ)
    (idx : Option (List ℕ)) (bf : Backfaces) (tris : List TriData)
    (h : meshTriData verts normals idx = Except.ok (some tris)) :
    rayMeshIntersection nrm M verts normals ray idx bf =
      Except.ok (rayMeshIntersectionCore nrm M (meshSpaceRayOf nrm M ray) bf tris).2 := by
  cases idx with
  | none =>
    unfold meshTriData at h
    unfold rayMeshIntersection
    cases hb : buildTrisNonIndexed verts normals with
    | error e => rw [hb] at h; simp [Except.map] at h
    | ok l =>
      rw [hb] at h
      simp only [Except.map] at h
      cases h
      simp [hb, Bind.bind, Except.bind]
  | some il =>
    unfold meshTriData at h
    unfold rayMeshIntersection
    simp only at h ⊢
    by_cases hlen : il.length % 3 ≠ 0
    · rw [if_pos hlen] at h
      simp at h
    · rw [if_neg hlen] at h
      rw [if_neg hlen]
      cases hc : chunk3 il with
      | none => rw [hc] at h; simp at h
      | some triples =>
        rw [hc] at h
        simp only at h
        cases hb : buildTrisIndexed verts normals triples with
        | error e => rw [hb] at h; simp [Except.map] at h
        | ok l =>
          rw [hb] at h
          simp only [Except.map] at h
          cases h
          simp [hb, Bind.bind, Except.bind]

/-- A small front triangle in the plane `x = 5` (hit at `t = 5`). -/
def triAtFive : TriangleQ := ⟨⟨5, -1, 2⟩, ⟨5, 2, -1⟩, ⟨5, -1, -1⟩⟩

/-- A large triangle in the plane `x = 1`, pierced at `t = 1`, whose vertices
all lie farther than `5` from the origin. -/
def triAtOne : TriangleQ := ⟨⟨1, -100, 200⟩, ⟨1, 200, -100⟩, ⟨1, -100, -100⟩⟩

/-- Non-indexed vertex buffer holding `triAtFive` then `triAtOne`. -/
def vertsNearFar : List Vec3Q :=
  [⟨5, -1, 2⟩, ⟨5, 2, -1⟩, ⟨5, -1, -1⟩, ⟨1, -100, 200⟩, ⟨1, 200, -100⟩, ⟨1, -100, -100⟩]

set_option maxHeartbeats 2000000 in
/-- **C3, counterexample.**  The mesh holds two triangles: `triAtFive` (hit at
mesh distance `5`) and `triAtOne` (hit at mesh distance `1`, but every vertex
farther than `5` from the ray origin).  After the first hit sets
`min_pick_distance = 5`, the vertex-proximity rejection in
`triangle_intersection` skips `triAtOne` wholesale, so
`ray_mesh_intersection` returns the hit at distance `5` even though a triangle
with `0 < t = 1 < 5` exists — refuting "the returned record corresponds to the
minimal such t". -/
theorem ray_mesh_intersection_nearest_counterexample :
    rayMeshIntersection axisNorm Mat4Q.identityM vertsNearFar none rayUnitTest none .Cull =
      Except.ok (some ⟨⟨5, 0, 0⟩, ⟨-1, 0, 0⟩, 5, some triAtFive⟩) ∧
    buildTrisNonIndexed vertsNearFar none = Except.ok [(triAtFive, none), (triAtOne, none)] ∧
    meshSpaceRayOf axisNorm Mat4Q.identityM rayUnitTest = rayUnitTest ∧
    raycastMollerTrumbore rayUnitTest triAtOne .Cull = some ⟨1, (1/3, 1/3)⟩ := by
  refine ⟨?_, ?_, ?_, ?_⟩
  · norm_num [rayMeshIntersection, meshSpaceRayOf, Mat4Q.inverse, Mat4Q.identityM,
      Mat4Q.transformPoint3, Mat4Q.transformVector3, Ray3dQ.mk_normalized, axisNorm,
      buildTrisNonIndexed, chunk3Panic, idxPanic, rayMeshIntersectionCore, rayMeshStep,
      triangleIntersection, raycastMollerTrumbore, worldIntersection, Ray3dQ.position,
      Vec3Q.sub_def, Vec3Q.add_def, Vec3Q.dot, Vec3Q.cross, Vec3Q.smul, Vec3Q.lengthSq,
      f32MAX, epsilonF, vertsNearFar, rayUnitTest, triAtFive, Bind.bind, Except.bind,
      Except.map, List.map, List.foldl]
  · norm_num [buildTrisNonIndexed, chunk3Panic, idxPanic, vertsNearFar, triAtFive, triAtOne,
      Bind.bind, Except.bind, Except.map, List.map]
  · norm_num [meshSpaceRayOf, Mat4Q.inverse, Mat4Q.identityM, Mat4Q.transformPoint3,
      Mat4Q.transformVector3, Ray3dQ.mk_normalized, axisNorm, rayUnitTest, Vec3Q.sub_def,
      Vec3Q.add_def, Vec3Q.dot, Vec3Q.cross, Vec3Q.smul]
  · norm_num [raycastMollerTrumbore, rayUnitTest, triAtOne, Vec3Q.sub_def, Vec3Q.dot,
      Vec3Q.cross, epsilonF]

/-- **C3, amended.**  `ray_mesh_intersection` returns at most one record (the
`Option` result).  When the triangle data resolves and the loop ends in state
`(d, res)`: the driver returns `res`; a returned record corresponds to a real
kernel hit at mesh distance `d > 0`; `d` is minimal among kernel hits of
triangles that pass the vertex-proximity culling at `d` (a triangle is culled
when every vertex is at least `d` from the mesh-space ray origin — the
heuristic the counterexample exploits); and when no triangle has a kernel hit
with `0 < t`, the result is `none`. -/
theorem ray_mesh_intersection_nearest_amended (nrm : Vec3Q → ℚ) (M : Mat4Q)
    (verts : List Vec3Q) (normals : Option (List Vec3Q)) (ray : Ray3dQ)
    (idx : Option (List ℕ)) (bf : Backfaces) (tris : List TriData)
    (d : ℚ) (res : Option IntersectionDataQ)
    (hdata : meshTriData verts normals idx = Except.ok (some tris))
    (hcore : rayMeshIntersectionCore nrm M (meshSpaceRayOf nrm M ray) bf tris = (d, res)) :
    rayMeshIntersection nrm M verts normals ray idx bf = Except.ok res ∧
    (∀ i, res = some i → 0 < d ∧ ∃ td ∈ tris, ∃ hh,
      raycastMollerTrumbore (meshSpaceRayOf nrm M ray) td.1 bf = some hh ∧ hh.distance = d) ∧
    (∀ td ∈ tris, proxAt (meshSpaceRayOf nrm M ray) td.1 d →
      ∀ hh, raycastMollerTrumbore (meshSpaceRayOf nrm M ray) td.1 bf = some hh →
        0 < hh.distance → d ≤ hh.distance) ∧
    ((∀ td ∈ tris, ∀ hh,
        raycastMollerTrumbore (meshSpaceRayOf nrm M ray) td.1 bf = some hh →
        hh.distance ≤ 0) → res = none) := by
  have hf32 : (0 : ℚ) < f32MAX := by norm_num [f32MAX]
  unfold rayMeshIntersectionCore at hcore
  refine ⟨?_, ?_, ?_, ?_⟩
  · rw [rayMeshIntersection_eq_core nrm M verts normals ray idx bf tris hdata]
    unfold rayMeshIntersectionCore
    rw [hcore]
  · intro i hres
    rcases rayMeshFold_some nrm M (meshSpaceRayOf nrm M ray) bf tris (f32MAX, none) i
        (by rw [hcore]; exact hres) with heq | ⟨td, htd, hh, hker, hdist, hpos⟩
    · rw [hcore] at heq
      cases heq
      exact absurd hres (by simp)
    · rw [hcore] at hdist hpos
      exact ⟨hpos, td, htd, hh, hker, hdist⟩
  · intro td htd hprox hh hker hpos
    have := rayMeshFold_nearest nrm M (meshSpaceRayOf nrm M ray) bf tris (f32MAX, none) hf32
      td htd (by rw [hcore]; exact hprox) hh hker hpos
    rw [hcore] at this
    exact this
  · intro hnone
    have := rayMeshFold_none nrm M (meshSpaceRayOf nrm M ray) bf tris (f32MAX, none) hnone
    rw [hcore] at this
    cases this
    rfl

set_option maxHeartbeats 1000000 in
/-- Witness for the amended C3: the single-triangle unit-test mesh resolves,
the loop ends at `(1, some record)`, and the amended theorem applies: the
driver returns that record and its mesh distance `1` is positive and realized
by a kernel hit. -/
theorem ray_mesh_intersection_nearest_amended_witness :
    rayMeshIntersection axisNorm Mat4Q.identityM [⟨1, -1, 2⟩, ⟨1, 2, -1⟩, ⟨1, -1, -1⟩] none
        rayUnitTest none .Cull =
      Except.ok (some ⟨⟨1, 0, 0⟩, ⟨-1, 0, 0⟩, 1, some triUnitTest⟩) ∧
    (0 : ℚ) < 1 :=
  have happ := ray_mesh_intersection_nearest_amended axisNorm Mat4Q.identityM
    [⟨1, -1, 2⟩, ⟨1, 2, -1⟩, ⟨1, -1, -1⟩] none rayUnitTest none .Cull
    [(triUnitTest, none)] 1 (some ⟨⟨1, 0, 0⟩, ⟨-1, 0, 0⟩, 1, some triUnitTest⟩)
    (by norm_num [meshTriData, buildTrisNonIndexed, chunk3Panic, idxPanic, triUnitTest,
      Bind.bind, Except.bind, Except.map, List.map])
    (by norm_num [rayMeshIntersectionCore, rayMeshStep, triangleIntersection,
      raycastMollerTrumbore, worldIntersection, meshSpaceRayOf, Mat4Q.inverse,
      Mat4Q.identityM, Mat4Q.transformPoint3, Mat4Q.transformVector3, Ray3dQ.mk_normalized,
      Ray3dQ.position, axisNorm, Vec3Q.sub_def, Vec3Q.add_def, Vec3Q.dot, Vec3Q.cross,
      Vec3Q.smul, Vec3Q.lengthSq, f32MAX, epsilonF, rayUnitTest, triUnitTest, List.foldl])
  ⟨happ.1, (happ.2.1 ⟨⟨1, 0, 0⟩, ⟨-1, 0, 0⟩, 1, some triUnitTest⟩ rfl).1⟩

/-!
## Normal interpolation (C7)
-/

/-- The vertex normals of the spec's normal-interpolation scenario. -/
def normsScenario : Vec3Q × Vec3Q × Vec3Q := (⟨1, 0, 0⟩, ⟨0, 1, 0⟩, ⟨0, 0, 1⟩)

/-- **C7, counterexample.**  The claim states the returned normal equals
`normalize(n0·w + n1·u + n2·v)`.  The code interpolates but never normalizes:
at the centroid of the unit-test triangle with vertex normals
`(1,0,0), (0,1,0), (0,0,1)` the record carries `(1/3, 1/3, 1/3)`, of squared
length `1/3`; no rational multiple of `(1,1,1)` has unit squared length, so
the returned vector cannot be the normalization of the interpolated sum. -/
theorem triangle_normal_interpolation_counterexample :
    triangleIntersection axisNorm triUnitTest (some normsScenario) f32MAX rayUnitTest .Cull =
      some ⟨⟨1, 0, 0⟩, ⟨1/3, 1/3, 1/3⟩, 1, some triUnitTest⟩ ∧
    Vec3Q.lengthSq ⟨1/3, 1/3, 1/3⟩ ≠ 1 ∧
    ∀ c : ℚ, Vec3Q.lengthSq (Vec3Q.smul c ⟨1, 1, 1⟩) ≠ 1 := by
  refine ⟨?_, by norm_num [Vec3Q.lengthSq, Vec3Q.dot], ?_⟩
  · norm_num [triangleIntersection, raycastMollerTrumbore, Ray3dQ.position, rayUnitTest,
      triUnitTest, normsScenario, Vec3Q.sub_def, Vec3Q.add_def, Vec3Q.dot, Vec3Q.cross,
      Vec3Q.smul, Vec3Q.lengthSq, f32MAX, epsilonF]
  · intro c hc
    have hc3 : 3 * c ^ 2 = 1 := by
      simp only [Vec3Q.lengthSq, Vec3Q.dot, Vec3Q.smul] at hc
      ring_nf at hc ⊢
      linarith
    have hcne : c ≠ 0 := by
      intro h0
      rw [h0] at hc3
      norm_num at hc3
    have hsq : ((1 / c : ℚ) : ℝ) ^ 2 = 3 := by
      have : (c : ℝ) ^ 2 * 3 = 1 := by
        have := congrArg (fun q : ℚ => (q : ℝ)) hc3
        push_cast at this
        linarith
      have hcne' : (c : ℝ) ≠ 0 := by exact_mod_cast hcne
      field_simp
      linarith
    have hirr : Irrational (Real.sqrt 3) := by
      simpa using Nat.prime_three.irrational_sqrt
    have : Real.sqrt 3 = |((1 / c : ℚ) : ℝ)| := by
      rw [← hsq]
      exact Real.sqrt_sq_eq_abs _
    rw [← Rat.cast_abs] at this
    exact hirr ⟨|1 / c|, this.symm⟩

/-- **C7, amended.**  With vertex normals present, the returned normal is the
*unnormalized* barycentric interpolation `n1·u + n2·v + n0·w` (collinear with
the claimed `normalize(...)` but generally not unit length); with normals
absent the geometric face normal `normalize((v1−v0)×(v2−v0))` is used, and
under the norm oracle's contract it has unit squared length. -/
theorem triangle_normal_interpolation_amended (nrm : Vec3Q → ℚ) (tri : TriangleQ)
    (maxD : ℚ) (ray : Ray3dQ) (bf : Backfaces) :
    (∀ norms i, triangleIntersection nrm tri (some norms) maxD ray bf = some i →
      ∃ hh, raycastMollerTrumbore ray tri bf = some hh ∧
        i.normal =
          Vec3Q.smul hh.uvCoords.1 norms.2.1 + Vec3Q.smul hh.uvCoords.2 norms.2.2 +
            Vec3Q.smul (1 - hh.uvCoords.1 - hh.uvCoords.2) norms.1) ∧
    (∀ i, triangleIntersection nrm tri none maxD ray bf = some i →
      i.normal =
        Vec3Q.smul (nrm ((tri.v1 - tri.v0).cross (tri.v2 - tri.v0)))⁻¹
          ((tri.v1 - tri.v0).cross (tri.v2 - tri.v0)) ∧
      (nrm ((tri.v1 - tri.v0).cross (tri.v2 - tri.v0)) *
          nrm ((tri.v1 - tri.v0).cross (tri.v2 - tri.v0)) =
          Vec3Q.lengthSq ((tri.v1 - tri.v0).cross (tri.v2 - tri.v0)) →
        0 < nrm ((tri.v1 - tri.v0).cross (tri.v2 - tri.v0)) →
        Vec3Q.lengthSq i.normal = 1)) := by
  constructor
  · intro norms i h
    unfold triangleIntersection at h
    split_ifs at h with hprox
    cases hker : raycastMollerTrumbore ray tri bf with
    | none => rw [hker] at h; simp at h
    | some hh =>
      rw [hker] at h
      simp only at h
      split_ifs at h with hd
      refine ⟨hh, rfl, ?_⟩
      cases h
      rfl
  · intro i h
    unfold triangleIntersection at h
    split_ifs at h with hprox
    cases hker : raycastMollerTrumbore ray tri bf with
    | none => rw [hker] at h; simp at h
    | some hh =>
      rw [hker] at h
      simp only at h
      split_ifs at h with hd
      have hnormal : i.normal =
          Vec3Q.smul (nrm ((tri.v1 - tri.v0).cross (tri.v2 - tri.v0)))⁻¹
            ((tri.v1 - tri.v0).cross (tri.v2 - tri.v0)) := by
        cases h
        rfl
      refine ⟨hnormal, fun hcontract hpos => ?_⟩
      rw [hnormal]
      unfold Vec3Q.lengthSq at hcontract ⊢
      rw [Vec3Q.dot_smul_self, ← hcontract]
      have : nrm ((tri.v1 - tri.v0).cross (tri.v2 - tri.v0)) ≠ 0 := ne_of_gt hpos
      field_simp

/-- Witness for the amended C7: the centroid scenario instantiates the
normals-present clause, producing exactly the unnormalized `(1/3, 1/3, 1/3)`
(the record of the counterexample). -/
theorem triangle_normal_interpolation_amended_witness :
    ∃ hh, raycastMollerTrumbore rayUnitTest triUnitTest .Cull = some hh ∧
      (⟨⟨1, 0, 0⟩, ⟨1/3, 1/3, 1/3⟩, 1, some triUnitTest⟩ : IntersectionDataQ).normal =
        Vec3Q.smul hh.uvCoords.1 normsScenario.2.1 + Vec3Q.smul hh.uvCoords.2 normsScenario.2.2 +
          Vec3Q.smul (1 - hh.uvCoords.1 - hh.uvCoords.2) normsScenario.1 :=
  (triangle_normal_interpolation_amended axisNorm triUnitTest f32MAX rayUnitTest .Cull).1
    normsScenario ⟨⟨1, 0, 0⟩, ⟨1/3, 1/3, 1/3⟩, 1, some triUnitTest⟩
    (by norm_num [triangleIntersection, raycastMollerTrumbore, Ray3dQ.position, rayUnitTest,
      triUnitTest, normsScenario, Vec3Q.sub_def, Vec3Q.add_def, Vec3Q.dot, Vec3Q.cross,
      Vec3Q.smul, Vec3Q.lengthSq, f32MAX, epsilonF])

/-!
## Octree leaf raycast (`octree/mod.rs`)
-/

/-- The `MeshAccessor` of `octree/mod.rs`: raw views of the position buffer,
the optional normal buffer, and the optional index buffer. -/
structure MeshAccessorQ where
  verts : List Vec3Q
  normals : Option (List Vec3Q)
  indices : Option (List ℕ)

namespace MeshAccessorQ

/-- `MeshAccessor::get_triangle` (the `octree/mod.rs` copy): with indices, a
triple reaching past the index buffer yields `None`; dereferencing the index
values into `verts` panics when out of range.  Without indices the vertex
reads `verts[3i..3i+2]` are unchecked and panic past the end. -/
def getTriangle (m : MeshAccessorQ) (index : ℕ) : Except Unit (Option TriangleQ) :=
  match m.indices with
  | some idx =>
    if idx.length ≤ index * 3 + 2 then Except.ok none
    else do
      let i0 ← idxPanic idx (index * 3)
      let i1 ← idxPanic idx (index * 3 + 1)
      let i2 ← idxPanic idx (index * 3 + 2)
      let v0 ← idxPanic m.verts i0
      let v1 ← idxPanic m.verts i1
      let v2 ← idxPanic m.verts i2
      Except.ok (some ⟨v0, v1, v2⟩)
  | none => do
    let v0 ← idxPanic m.verts (index * 3)
    let v1 ← idxPanic m.verts (index * 3 + 1)
    let v2 ← idxPanic m.verts (index * 3 + 2)
    Except.ok (some ⟨v0, v1, v2⟩)

/-- `MeshAccessor::triangle_normals`: unchecked reads of
`indices[3i..3i+2]` and of the normal buffer. -/
def triangleNormals (m : MeshAccessorQ) (index : ℕ) :
    Except Unit (Option (Vec3Q × Vec3Q × Vec3Q)) :=
  match m.normals with
  | none => Except.ok none
  | some ns =>
    match m.indices with
    | some idx => do
      let i0 ← idxPanic idx (index * 3)
      let i1 ← idxPanic idx (index * 3 + 1)
      let i2 ← idxPanic idx (index * 3 + 2)
      let n0 ← idxPanic ns i0
      let n1 ← idxPanic ns i1
      let n2 ← idxPanic ns i2
      Except.ok (some (n0, n1, n2))
    | none => do
      let n0 ← idxPanic ns (index * 3)
      let n1 ← idxPanic ns (index * 3 + 1)
      let n2 ← idxPanic ns (index * 3 + 2)
      Except.ok (some (n0, n1, n2))

/-- `MeshAccessor::intersection_normal`: barycentric interpolation when
normals exist (unnormalized, as in `triangle_intersection`), otherwise the
normalized geometric normal; `get_triangle(...).unwrap()` panics on `None`. -/
def intersectionNormal (nrm : Vec3Q → ℚ) (m : MeshAccessorQ) (index : ℕ) (hit : RayHitQ) :
    Except Unit Vec3Q := do
  let tn ← m.triangleNormals index
  match tn with
  | some (n0, n1, n2) =>
    let u := hit.uvCoords.1
    let v := hit.uvCoords.2
    let w := 1 - u - v
    Except.ok (Vec3Q.smul u n1 + Vec3Q.smul v n2 + Vec3Q.smul w n0)
  | none => do
    let t ← m.getTriangle index
    match t with
    | none => Except.error ()
    | some tri =>
      let c := (tri.v1 - tri.v0).cross (tri.v2 - tri.v0)
      Except.ok (Vec3Q.smul (nrm c)⁻¹ c)

end MeshAccessorQ

/-- The hit-collection loop of `MeshOctree::leaf_raycast`: for each triangle
index in the leaf, fetch the triangle (`expect` panics on a `None`), run the
kernel with `Backfaces::Cull`, and keep hits with `distance ≤ 0`. -/
def leafHits (nrm : Vec3Q → ℚ) (m : MeshAccessorQ) (ray : Ray3dQ) :
    List ℕ → Except Unit (List IntersectionDataQ)
  | [] => Except.ok []
  | i :: rest => do
    let t ← m.getTriangle i
    match t with
    | none => Except.error ()
    | some triangle =>
      let hit :=
        match raycastMollerTrumbore ray triangle .Cull with
        | some hit => if hit.distance ≤ 0 then some hit else none
        | none => none
      match hit with
      | some hit => do
        let nv ← m.intersectionNormal nrm i hit
        let tail ← leafHits nrm m ray rest
        Except.ok (⟨ray.position hit.distance, nv, hit.distance, some triangle⟩ :: tail)
      | none => leafHits nrm m ray rest

/-- `MeshOctree::leaf_raycast`: collect the accepted hits of the leaf's
triangles, sort ascending by distance, return the first (if any). -/
def leafRaycast (nrm : Vec3Q → ℚ) (m : MeshAccessorQ) (leafTriangles : List ℕ) (ray : Ray3dQ) :
    Except Unit (Option IntersectionDataQ) := do
  let hits ← leafHits nrm m ray leafTriangles
  Except.ok (List.insertionSort (fun a b => a.distance ≤ b.distance) hits).head?

/-- The unit-test triangle as a non-indexed `MeshAccessor`. -/
def accessorUnitTest : MeshAccessorQ := ⟨[⟨1, -1, 2⟩, ⟨1, 2, -1⟩, ⟨1, -1, -1⟩], none, none⟩

/-- The ray from `(2,0,0)` along `+X`: the unit-test triangle's plane `x = 1`
lies behind its origin. -/
def rayBehind : Ray3dQ := ⟨⟨2, 0, 0⟩, ⟨1, 0, 0⟩⟩

/-- **C10.** `raycast_moller_trumbore` imposes no sign constraint on the
returned distance: for the unit-test triangle with the ray origin moved to
`(2,0,0)` the kernel (with culling) returns a hit at `t = −1 < 0`.  Filtering
is the caller's responsibility: `triangle_intersection` (which requires
`0 < t`) rejects this hit, while the octree leaf test (which accepts
`t ≤ 0`) keeps it. -/
theorem kernel_no_sign_constraint :
    raycastMollerTrumbore rayBehind triUnitTest .Cull = some ⟨-1, (1/3, 1/3)⟩ ∧
    (-1 : ℚ) < 0 ∧
    triangleIntersection axisNorm triUnitTest none f32MAX rayBehind .Cull = none ∧
    leafRaycast axisNorm accessorUnitTest [0] rayBehind =
      Except.ok (some ⟨⟨1, 0, 0⟩, ⟨-1, 0, 0⟩, -1, some triUnitTest⟩) := by
  refine ⟨?_, by norm_num, ?_, ?_⟩
  · norm_num [raycastMollerTrumbore, rayBehind, triUnitTest, Vec3Q.sub_def, Vec3Q.dot,
      Vec3Q.cross, epsilonF]
  · norm_num [triangleIntersection, raycastMollerTrumbore, rayBehind, triUnitTest,
      Vec3Q.sub_def, Vec3Q.add_def, Vec3Q.dot, Vec3Q.cross, Vec3Q.smul, Vec3Q.lengthSq,
      f32MAX, epsilonF]
  · norm_num [leafRaycast, leafHits, MeshAccessorQ.getTriangle, MeshAccessorQ.intersectionNormal,
      MeshAccessorQ.triangleNormals, idxPanic, raycastMollerTrumbore, Ray3dQ.position,
      accessorUnitTest, rayBehind, triUnitTest, Vec3Q.sub_def, Vec3Q.add_def, Vec3Q.dot,
      Vec3Q.cross, Vec3Q.smul, axisNorm, epsilonF, Bind.bind, Except.bind,
      List.insertionSort, List.orderedInsert]

set_option maxHeartbeats 1000000 in
/-- **C1.** The octree leaf test accepts a hit only when `t ≤ 0`
(`octree/mod.rs`, `leaf_raycast`), while the linear scan accepts only
`0 < t`: for the single-triangle mesh hit ahead of the origin at `t = 1`, the
octree path reports no hit from its leaf while `ray_mesh_intersection`
returns the hit — the two paths do not accept the same set of forward hits,
confirming the spec's noted divergence (the code is the slip; the spec says a
faithful implementation SHOULD accept `t > 0`). -/
theorem octree_leaf_rejects_forward_hits :
    leafRaycast axisNorm accessorUnitTest [0] rayUnitTest = Except.ok none ∧
    rayMeshIntersection axisNorm Mat4Q.identityM [⟨1, -1, 2⟩, ⟨1, 2, -1⟩, ⟨1, -1, -1⟩] none
        rayUnitTest none .Cull =
      Except.ok (some ⟨⟨1, 0, 0⟩, ⟨-1, 0, 0⟩, 1, some triUnitTest⟩) ∧
    raycastMollerTrumbore rayUnitTest triUnitTest .Cull = some ⟨1, (1/3, 1/3)⟩ := by
  refine ⟨?_, ?_, ?_⟩
  · norm_num [leafRaycast, leafHits, MeshAccessorQ.getTriangle, MeshAccessorQ.intersectionNormal,
      MeshAccessorQ.triangleNormals, idxPanic, raycastMollerTrumbore, Ray3dQ.position,
      accessorUnitTest, rayUnitTest, triUnitTest, Vec3Q.sub_def, Vec3Q.add_def, Vec3Q.dot,
      Vec3Q.cross, Vec3Q.smul, axisNorm, epsilonF, Bind.bind, Except.bind,
      List.insertionSort, List.orderedInsert]
  · norm_num [rayMeshIntersection, meshSpaceRayOf, Mat4Q.inverse, Mat4Q.identityM,
      Mat4Q.transformPoint3, Mat4Q.transformVector3, Ray3dQ.mk_normalized, axisNorm,
      buildTrisNonIndexed, chunk3Panic, idxPanic, rayMeshIntersectionCore, rayMeshStep,
      triangleIntersection, raycastMollerTrumbore, worldIntersection, Ray3dQ.position,
      Vec3Q.sub_def, Vec3Q.add_def, Vec3Q.dot, Vec3Q.cross, Vec3Q.smul, Vec3Q.lengthSq,
      f32MAX, epsilonF, rayUnitTest, triUnitTest, Bind.bind, Except.bind,
      Except.map, List.map, List.foldl]
  · norm_num [raycastMollerTrumbore, rayUnitTest, triUnitTest, Vec3Q.sub_def, Vec3Q.dot,
      Vec3Q.cross, epsilonF]

/-!
## Scene broad-phase: `Raycast::cast_ray` (`system_param.rs`)
-/

/-- `Ray3d::intersects_aabb`: transform the ray into the model frame (the
direction re-normalized by `Ray3d::new`, through the norm oracle) and run the
local slab test. -/
def intersectsAabb (nrm : Vec3Q → ℚ) (ray : Ray3dQ) (aabb : AabbQ) (modelToWorld : Mat4Q) :
    Option (XF × XF) :=
  let worldToModel := modelToWorld.inverse
  let direction := worldToModel.transformVector3 ray.direction
  let origin := worldToModel.transformPoint3 ray.origin
  intersectsLocalAabb (Ray3dQ.mk_normalized origin direction (nrm direction)) aabb

/-- `RaycastVisibility` of `system_param.rs`. -/
inductive RaycastVisibility where
  | Ignore
  | MustBeVisible
  | MustBeVisibleAndInView
deriving DecidableEq, Repr

/-- `RaycastSettings`: visibility mode, entity filter, early-exit test. -/
structure RaycastSettingsQ where
  visibility : RaycastVisibility
  filter : ℕ → Bool
  earlyExitTest : ℕ → Bool

/-- A raycastable entity as seen by `Raycast::cast_ray`'s queries: an id, its
`ComputedVisibility` flags, its `Aabb`, its `GlobalTransform`, its mesh, an
optional simplified mesh, and the `NoBackfaceCulling` marker. -/
structure RaycastEntityQ where
  entity : ℕ
  visibleHierarchy : Bool
  visibleView : Bool
  aabb : AabbQ
  transform : Mat4Q
  mesh : MeshQ
  simplifiedMesh : Option MeshQ
  noBackfaceCulling : Bool

/-- The visibility gate of the culling loop. -/
def visiblePasses (vis : RaycastVisibility) (e : RaycastEntityQ) : Bool :=
  match vis with
  | .Ignore => true
  | .MustBeVisible => e.visibleHierarchy
  | .MustBeVisibleAndInView => e.visibleView

/-- Mesh resolution in the narrow-phase closure: the simplified mesh when
present, the real mesh otherwise. -/
def resolvedMesh (e : RaycastEntityQ) : MeshQ := e.simplifiedMesh.getD e.mesh

/-- Back-face policy per entity: `Include` under `NoBackfaceCulling`. -/
def entityBackfaces (e : RaycastEntityQ) : Backfaces :=
  if e.noBackfaceCulling then Backfaces.Include else Backfaces.Cull

/-- The narrow-phase call made for one entity. -/
def meshHitOf (nrm : Vec3Q → ℚ) (ray : Ray3dQ) (e : RaycastEntityQ) :
    Except Unit (Option IntersectionDataQ) :=
  rayIntersectionOverMesh nrm (resolvedMesh e) e.transform ray (entityBackfaces e)

/-- Total-order minimum on `XF` keys, as `FloatOrd::min`. -/
def minXF (a b : XF) : XF := if XF.toW a ≤ XF.toW b then a else b

/-- The AABB culling phase: visible entities whose AABB the ray enters with
`far ≥ 0`, tagged with the entry distance `near`. -/
def cullPhase (nrm : Vec3Q → ℚ) (ray : Ray3dQ) (vis : RaycastVisibility)
    (entities : List RaycastEntityQ) : List (XF × RaycastEntityQ) :=
  entities.filterMap (fun e =>
    if visiblePasses vis e then
      match intersectsAabb nrm ray e.aabb e.transform with
      | some (near, far) => if XF.ble (XF.fin 0) far then some (near, e) else none
      | none => none
    else none)

/-- The culled list sorted ascending by AABB entry distance (stable, as
Rust's `sort_by_key`). -/
def castRayCulled (nrm : Vec3Q → ℚ) (ray : Ray3dQ) (vis : RaycastVisibility)
    (entities : List RaycastEntityQ) : List (XF × RaycastEntityQ) :=
  List.insertionSort (fun a b : XF × RaycastEntityQ => XF.toW a.1 ≤ XF.toW b.1)
    (cullPhase nrm ray vis entities)

/-- The user filter applied to the sorted candidates. -/
def castRayFiltered (nrm : Vec3Q → ℚ) (ray : Ray3dQ) (settings : RaycastSettingsQ)
    (entities : List RaycastEntityQ) : List (XF × RaycastEntityQ) :=
  (castRayCulled nrm ray settings.visibility entities).filter
    (fun p => settings.filter p.2.entity)

/-- The narrow-phase loop of `cast_ray`: state is the pushed hit list and
`nearest_blocking_hit`.  A candidate whose entry distance exceeds the current
blocker is skipped; a hit updates the blocker when the entity's
`early_exit_test` passes and the hit is nearer. -/
def castRayLoop (nrm : Vec3Q → ℚ) (ray : Ray3dQ) (settings : RaycastSettingsQ) :
    List (XF × RaycastEntityQ) → List (XF × (ℕ × IntersectionDataQ)) × XF →
    Except Unit (List (XF × (ℕ × IntersectionDataQ)) × XF)
  | [], st => Except.ok st
  | (near, e) :: rest, (hits, nb) =>
    if XF.toW nb < XF.toW near then castRayLoop nrm ray settings rest (hits, nb)
    else do
      let intersection ← meshHitOf nrm ray e
      match intersection with
      | some i =>
        let distance := XF.fin i.distance
        let nb' :=
          if settings.earlyExitTest e.entity = true ∧ XF.toW distance < XF.toW nb then
            minXF distance nb
          else nb
        castRayLoop nrm ray settings rest (hits ++ [(distance, (e.entity, i))], nb')
      | none => castRayLoop nrm ray settings rest (hits, nb)

/-- The loop run from the empty state. -/
def castRayState (nrm : Vec3Q → ℚ) (ray : Ray3dQ) (settings : RaycastSettingsQ)
    (entities : List RaycastEntityQ) :
    Except Unit (List (XF × (ℕ × IntersectionDataQ)) × XF) :=
  castRayLoop nrm ray settings (castRayFiltered nrm ray settings entities) ([], XF.posinf)

/-- `self.hits.retain(|(dist, _)| *dist <= nearest_blocking_hit)`. -/
def castRayRetained (nrm : Vec3Q → ℚ) (ray : Ray3dQ) (settings : RaycastSettingsQ)
    (entities : List RaycastEntityQ) : Except Unit (List (XF × (ℕ × IntersectionDataQ))) :=
  (castRayState nrm ray settings entities).map
    (fun st => st.1.filter (fun p => XF.toW p.1 ≤ XF.toW st.2))

/-- `Raycast::cast_ray`: retained hits sorted ascending by distance (stable),
projected to `(entity, intersection)` pairs. -/
def castRay (nrm : Vec3Q → ℚ) (ray : Ray3dQ) (settings : RaycastSettingsQ)
    (entities : List RaycastEntityQ) : Except Unit (List (ℕ × IntersectionDataQ)) :=
  (castRayRetained nrm ray settings entities).map
    (fun hits =>
      (List.insertionSort (fun a b : XF × (ℕ × IntersectionDataQ) =>
        XF.toW a.1 ≤ XF.toW b.1) hits).map (fun p => p.2))

theorem toW_minXF (a b : XF) : XF.toW (minXF a b) = min (XF.toW a) (XF.toW b) := by
  unfold minXF
  split_ifs with h
  · exact (min_eq_left h).symm
  · exact (min_eq_right (le_of_not_le h)).symm

theorem castRayLoop_key_inv (nrm : Vec3Q → ℚ) (ray : Ray3dQ) (settings : RaycastSettingsQ) :
    ∀ (l : List (XF × RaycastEntityQ)) (st st' : List (XF × (ℕ × IntersectionDataQ)) × XF),
      (∀ p ∈ st.1, p.1 = XF.fin p.2.2.distance) →
      castRayLoop nrm ray settings l st = Except.ok st' →
      ∀ p ∈ st'.1, p.1 = XF.fin p.2.2.distance := by
  intro l
  induction l with
  | nil =>
    intro st st' hinv hloop
    cases hloop
    exact hinv
  | cons c rest ih =>
    intro st st' hinv hloop
    obtain ⟨near, e⟩ := c
    obtain ⟨hits, nb⟩ := st
    unfold castRayLoop at hloop
    split_ifs at hloop with hskip
    · exact ih (hits, nb) st' hinv hloop
    · cases hmesh : meshHitOf nrm ray e with
      | error u => rw [hmesh] at hloop; simp [Bind.bind, Except.bind] at hloop
      | ok r =>
        rw [hmesh] at hloop
        simp only [Bind.bind, Except.bind] at hloop
        cases r with
        | none => exact ih (hits, nb) st' hinv hloop
        | some i =>
          refine ih _ st' ?_ hloop
          intro p hp
          rcases List.mem_append.mp hp with hp | hp
          · exact hinv p hp
          · rw [List.mem_singleton.mp hp]

theorem castRayLoop_hits_prefix (nrm : Vec3Q → ℚ) (ray : Ray3dQ)
    (settings : RaycastSettingsQ) :
    ∀ (l : List (XF × RaycastEntityQ)) (st st' : List (XF × (ℕ × IntersectionDataQ)) × XF),
      castRayLoop nrm ray settings l st = Except.ok st' →
      ∃ tail, st'.1 = st.1 ++ tail := by
  intro l
  induction l with
  | nil =>
    intro st st' hloop
    cases hloop
    exact ⟨[], (List.append_nil _).symm⟩
  | cons c rest ih =>
    intro st st' hloop
    obtain ⟨near, e⟩ := c
    obtain ⟨hits, nb⟩ := st
    unfold castRayLoop at hloop
    split_ifs at hloop with hskip
    · exact ih (hits, nb) st' hloop
    · cases hmesh : meshHitOf nrm ray e with
      | error u => rw [hmesh] at hloop; simp [Bind.bind, Except.bind] at hloop
      | ok r =>
        rw [hmesh] at hloop
        simp only [Bind.bind, Except.bind] at hloop
        cases r with
        | none => exact ih (hits, nb) st' hloop
        | some i =>
          obtain ⟨tail, htail⟩ := ih _ st' hloop
          exact ⟨(XF.fin i.distance, (e.entity, i)) :: tail, by
            rw [htail, List.append_assoc]
            rfl⟩

/-- **C5.** The hit list returned by `Raycast::cast_ray` is sorted ascending
(non-decreasing) in hit distance; the candidate list is itself sorted
ascending by AABB entry distance; and the final sort is stable, so hits with
equal distance keep the order in which the candidate iteration pushed them. -/
theorem cast_ray_output_sorted (nrm : Vec3Q → ℚ) (ray : Ray3dQ)
    (settings : RaycastSettingsQ) (entities : List RaycastEntityQ) :
    (∀ out, castRay nrm ray settings entities = Except.ok out →
      out.Sorted (fun x y : ℕ × IntersectionDataQ => x.2.distance ≤ y.2.distance)) ∧
    (castRayCulled nrm ray settings.visibility entities).Sorted
      (fun a b : XF × RaycastEntityQ => XF.toW a.1 ≤ XF.toW b.1) ∧
    (∀ retained x y, castRayRetained nrm ray settings entities = Except.ok retained →
      List.Sublist [x, y] retained → XF.toW x.1 ≤ XF.toW y.1 →
      ∀ out, castRay nrm ray settings entities = Except.ok out →
      List.Sublist [x.2, y.2] out) := by
  haveI h1 : IsTotal (XF × (ℕ × IntersectionDataQ))
      (fun a b => XF.toW a.1 ≤ XF.toW b.1) := ⟨fun a b => le_total _ _⟩
  haveI h2 : IsTrans (XF × (ℕ × IntersectionDataQ))
      (fun a b => XF.toW a.1 ≤ XF.toW b.1) := ⟨fun a b c hab hbc => le_trans hab hbc⟩
  haveI h3 : IsTotal (XF × RaycastEntityQ)
      (fun a b => XF.toW a.1 ≤ XF.toW b.1) := ⟨fun a b => le_total _ _⟩
  haveI h4 : IsTrans (XF × RaycastEntityQ)
      (fun a b => XF.toW a.1 ≤ XF.toW b.1) := ⟨fun a b c hab hbc => le_trans hab hbc⟩
  refine ⟨?_, ?_, ?_⟩
  · intro out hout
    unfold castRay castRayRetained at hout
    cases hstate : castRayState nrm ray settings entities with
    | error u => rw [hstate] at hout; simp [Except.map] at hout
    | ok st =>
      rw [hstate] at hout
      simp only [Except.map] at hout
      cases hout
      have hkeys : ∀ p ∈ st.1, p.1 = XF.fin p.2.2.distance :=
        castRayLoop_key_inv nrm ray settings _ ([], XF.posinf) st (by simp) hstate
      have hsorted := List.sorted_insertionSort
        (fun a b : XF × (ℕ × IntersectionDataQ) => XF.toW a.1 ≤ XF.toW b.1)
        (st.1.filter (fun p => XF.toW p.1 ≤ XF.toW st.2))
      rw [List.Sorted, List.pairwise_map]
      refine hsorted.imp_of_mem ?_
      intro a b ha hb hle
      have hamem : a ∈ st.1 := by
        have := (List.perm_insertionSort
          (fun a b : XF × (ℕ × IntersectionDataQ) => XF.toW a.1 ≤ XF.toW b.1) _).mem_iff.mp ha
        exact List.mem_of_mem_filter this
      have hbmem : b ∈ st.1 := by
        have := (List.perm_insertionSort
          (fun a b : XF × (ℕ × IntersectionDataQ) => XF.toW a.1 ≤ XF.toW b.1) _).mem_iff.mp hb
        exact List.mem_of_mem_filter this
      rw [hkeys a hamem, hkeys b hbmem] at hle
      simpa [XF.toW] using hle
  · exact List.sorted_insertionSort _ _
  · intro retained x y hret hsub hle out hout
    unfold castRay at hout
    rw [hret] at hout
    simp only [Except.map] at hout
    cases hout
    have := List.pair_sublist_insertionSort
      (r := fun a b : XF × (ℕ × IntersectionDataQ) => XF.toW a.1 ≤ XF.toW b.1) hle hsub
    exact this.map (fun p => p.2)

theorem toW_fin_lt_fin (a b : ℚ) : (XF.toW (XF.fin a) < XF.toW (XF.fin b)) ↔ a < b := by
  simp [XF.toW, WithBot.coe_lt_coe, WithTop.coe_lt_coe]

theorem toW_fin_le_fin (a b : ℚ) : (XF.toW (XF.fin a) ≤ XF.toW (XF.fin b)) ↔ a ≤ b := by
  simp [XF.toW, WithBot.coe_le_coe, WithTop.coe_le_coe]

theorem le_toW_posinf (a : XF) : XF.toW a ≤ XF.toW XF.posinf := by
  cases a <;> simp [XF.toW, ← WithBot.coe_top, WithBot.coe_le_coe]

theorem not_toW_posinf_lt (a : XF) : ¬(XF.toW XF.posinf < XF.toW a) :=
  not_lt.mpr (le_toW_posinf a)

theorem toW_fin_lt_posinf (a : ℚ) : XF.toW (XF.fin a) < XF.toW XF.posinf := by
  simp [XF.toW, ← WithBot.coe_top, WithBot.coe_lt_coe, WithTop.coe_lt_top]

/-!
## The spec's early-exit scenario: three nested boxes on the ray axis
-/

/-- A single-triangle mesh covering the front face region at `x = x0`. -/
def cubeMesh (x0 : ℚ) : MeshQ := ⟨true, [⟨x0, -5, 10⟩, ⟨x0, 10, -5⟩, ⟨x0, -5, -5⟩], none, none⟩

/-- A scenario entity: id, cube half-extent `h`, front face at `x0`. -/
def cubeEnt (id : ℕ) (h : ℚ) (x0 : ℚ) : RaycastEntityQ :=
  ⟨id, true, true, ⟨⟨0, 0, 0⟩, ⟨h, h, h⟩⟩, Mat4Q.identityM, cubeMesh x0, none, false⟩

/-- Three concentric boxes of half-extents 3, 2, 1 centered at the origin. -/
def threeCubes : List RaycastEntityQ :=
  [cubeEnt 1 3 (-3), cubeEnt 2 2 (-2), cubeEnt 3 1 (-1)]

/-- The scenario ray: from `(-10,0,0)` along `+X`. -/
def rayCubes : Ray3dQ := ⟨⟨-10, 0, 0⟩, ⟨1, 0, 0⟩⟩

/-- Settings with `early_exit_test ≡ true` (`always_early_exit`). -/
def settingsTrue : RaycastSettingsQ := ⟨.Ignore, fun _ => true, fun _ => true⟩

/-- Settings with `early_exit_test ≡ false` (`never_early_exit`). -/
def settingsFalse : RaycastSettingsQ := ⟨.Ignore, fun _ => true, fun _ => false⟩

/-- The scenario hit of the box with front face at `x0`, at distance `d`. -/
def cubeHit (x0 d : ℚ) : IntersectionDataQ :=
  ⟨⟨x0, 0, 0⟩, ⟨-1, 0, 0⟩, d, some ⟨⟨x0, -5, 10⟩, ⟨x0, 10, -5⟩, ⟨x0, -5, -5⟩⟩⟩

set_option maxHeartbeats 4000000 in
theorem threeCubes_castRay_true_eval :
    castRay axisNorm rayCubes settingsTrue threeCubes = Except.ok [(1, cubeHit (-3) 7)] := by
  norm_num [castRay, castRayRetained, castRayState, castRayLoop, castRayFiltered,
    castRayCulled, cullPhase, intersectsAabb, intersectsLocalAabb, slabTminx, slabTminy,
    slabTminz, slabTmaxx, slabTmaxy, slabTmaxz, slabT0x, slabT0y, slabT0z, slabT1x, slabT1y,
    slabT1z, XF.slabDiv, XF.fmin, XF.fmax, XF.blt, XF.ble, visiblePasses, meshHitOf,
    resolvedMesh, entityBackfaces, rayIntersectionOverMesh, rayMeshIntersection,
    meshSpaceRayOf, buildTrisNonIndexed, chunk3Panic, idxPanic, rayMeshIntersectionCore,
    rayMeshStep, triangleIntersection, raycastMollerTrumbore, worldIntersection,
    Ray3dQ.position, Ray3dQ.mk_normalized, Mat4Q.inverse, Mat4Q.identityM,
    Mat4Q.transformPoint3, Mat4Q.transformVector3, AabbQ.minC, AabbQ.maxC, Vec3Q.sub_def,
    Vec3Q.add_def, Vec3Q.dot, Vec3Q.cross, Vec3Q.smul, Vec3Q.lengthSq, f32MAX, epsilonF,
    minXF, List.insertionSort, List.orderedInsert, List.filterMap, List.filter, List.map,
    Bind.bind, Except.bind, Except.map, Option.getD, threeCubes, cubeEnt, cubeMesh, rayCubes,
    settingsTrue, cubeHit, axisNorm, toW_fin_lt_fin, toW_fin_le_fin, le_toW_posinf,
    not_toW_posinf_lt, toW_fin_lt_posinf]

set_option maxHeartbeats 4000000 in
theorem threeCubes_castRay_false_eval :
    castRay axisNorm rayCubes settingsFalse threeCubes =
      Except.ok [(1, cubeHit (-3) 7), (2, cubeHit (-2) 8), (3, cubeHit (-1) 9)] := by
  norm_num [castRay, castRayRetained, castRayState, castRayLoop, castRayFiltered,
    castRayCulled, cullPhase, intersectsAabb, intersectsLocalAabb, slabTminx, slabTminy,
    slabTminz, slabTmaxx, slabTmaxy, slabTmaxz, slabT0x, slabT0y, slabT0z, slabT1x, slabT1y,
    slabT1z, XF.slabDiv, XF.fmin, XF.fmax, XF.blt, XF.ble, visiblePasses, meshHitOf,
    resolvedMesh, entityBackfaces, rayIntersectionOverMesh, rayMeshIntersection,
    meshSpaceRayOf, buildTrisNonIndexed, chunk3Panic, idxPanic, rayMeshIntersectionCore,
    rayMeshStep, triangleIntersection, raycastMollerTrumbore, worldIntersection,
    Ray3dQ.position, Ray3dQ.mk_normalized, Mat4Q.inverse, Mat4Q.identityM,
    Mat4Q.transformPoint3, Mat4Q.transformVector3, AabbQ.minC, AabbQ.maxC, Vec3Q.sub_def,
    Vec3Q.add_def, Vec3Q.dot, Vec3Q.cross, Vec3Q.smul, Vec3Q.lengthSq, f32MAX, epsilonF,
    minXF, List.insertionSort, List.orderedInsert, List.filterMap, List.filter, List.map,
    Bind.bind, Except.bind, Except.map, Option.getD, threeCubes, cubeEnt, cubeMesh, rayCubes,
    settingsFalse, cubeHit, axisNorm, toW_fin_lt_fin, toW_fin_le_fin, le_toW_posinf,
    not_toW_posinf_lt, toW_fin_lt_posinf]

/-- The hits produced when no candidate is ever skipped (the
`never_early_exit` behaviour): one entry per candidate whose narrow-phase
reports a hit, in candidate order. -/
def collectHits (nrm : Vec3Q → ℚ) (ray : Ray3dQ) :
    List (XF × RaycastEntityQ) → Except Unit (List (XF × (ℕ × IntersectionDataQ)))
  | [] => Except.ok []
  | p :: rest => do
    let r ← meshHitOf nrm ray p.2
    let tail ← collectHits nrm ray rest
    match r with
    | some i => Except.ok ((XF.fin i.distance, (p.2.entity, i)) :: tail)
    | none => Except.ok tail

theorem castRayLoop_never_early (nrm : Vec3Q → ℚ) (ray : Ray3dQ)
    (settings : RaycastSettingsQ) (hE : ∀ n, settings.earlyExitTest n = false) :
    ∀ (l : List (XF × RaycastEntityQ)) (hits0 : List (XF × (ℕ × IntersectionDataQ))),
      castRayLoop nrm ray settings l (hits0, XF.posinf) =
        (collectHits nrm ray l).map (fun newHits => (hits0 ++ newHits, XF.posinf)) := by
  intro l
  induction l with
  | nil => intro hits0; simp [castRayLoop, collectHits, Except.map]
  | cons c rest ih =>
    intro hits0
    obtain ⟨near, e⟩ := c
    unfold castRayLoop collectHits
    rw [if_neg (not_toW_posinf_lt near)]
    cases hmesh : meshHitOf nrm ray e with
    | error u => simp [hmesh, Bind.bind, Except.bind, Except.map]
    | ok r =>
      simp only [hmesh, Bind.bind, Except.bind]
      cases r with
      | none =>
        rw [ih hits0]
        cases hc : collectHits nrm ray rest with
        | error u => simp [Except.map]
        | ok tail => simp [Except.map]
      | some i =>
        rw [hE e.entity]
        simp only [Bool.false_eq_true, false_and, if_false]
        rw [ih (hits0 ++ [(XF.fin i.distance, (e.entity, i))])]
        cases hc : collectHits nrm ray rest with
        | error u => simp [Except.map]
        | ok tail => simp [Except.map]

theorem collectHits_mem_of_hit (nrm : Vec3Q → ℚ) (ray : Ray3dQ) :
    ∀ (l : List (XF × RaycastEntityQ)) (hs : List (XF × (ℕ × IntersectionDataQ))),
      collectHits nrm ray l = Except.ok hs →
      ∀ p ∈ l, ∀ i, meshHitOf nrm ray p.2 = Except.ok (some i) →
        (XF.fin i.distance, (p.2.entity, i)) ∈ hs := by
  intro l
  induction l with
  | nil => intro hs _ p hp; exact absurd hp (List.not_mem_nil p)
  | cons c rest ih =>
    intro hs hcoll p hp i hhit
    unfold collectHits at hcoll
    cases hmesh : meshHitOf nrm ray c.2 with
    | error u => rw [hmesh] at hcoll; simp [Bind.bind, Except.bind] at hcoll
    | ok r =>
      rw [hmesh] at hcoll
      simp only [Bind.bind, Except.bind] at hcoll
      cases hc : collectHits nrm ray rest with
      | error u => rw [hc] at hcoll; simp at hcoll
      | ok tail =>
        rw [hc] at hcoll
        rcases List.mem_cons.mp hp with heq | hmem
        · subst heq
          rw [hmesh] at hhit
          cases hhit
          simp only [Bind.bind, Except.bind] at hcoll
          cases hcoll
          exact List.mem_cons_self _ _
        · cases r with
          | some j =>
            simp only [Bind.bind, Except.bind] at hcoll
            cases hcoll
            exact List.mem_cons_of_mem _ (ih _ hc p hmem i hhit)
          | none =>
            simp only [Bind.bind, Except.bind] at hcoll
            cases hcoll
            exact ih _ hc p hmem i hhit

theorem collectHits_mem_source (nrm : Vec3Q → ℚ) (ray : Ray3dQ) :
    ∀ (l : List (XF × RaycastEntityQ)) (hs : List (XF × (ℕ × IntersectionDataQ))),
      collectHits nrm ray l = Except.ok hs →
      ∀ x ∈ hs, ∃ p ∈ l, meshHitOf nrm ray p.2 = Except.ok (some x.2.2) ∧
        x = (XF.fin x.2.2.distance, (p.2.entity, x.2.2)) := by
  intro l
  induction l with
  | nil =>
    intro hs hcoll x hx
    unfold collectHits at hcoll
    cases hcoll
    exact absurd hx (List.not_mem_nil x)
  | cons c rest ih =>
    intro hs hcoll x hx
    unfold collectHits at hcoll
    cases hmesh : meshHitOf nrm ray c.2 with
    | error u => rw [hmesh] at hcoll; simp [Bind.bind, Except.bind] at hcoll
    | ok r =>
      rw [hmesh] at hcoll
      simp only [Bind.bind, Except.bind] at hcoll
      cases hc : collectHits nrm ray rest with
      | error u => rw [hc] at hcoll; simp at hcoll
      | ok tail =>
        rw [hc] at hcoll
        cases r with
        | some j =>
          simp only [Bind.bind, Except.bind] at hcoll
          cases hcoll
          rcases List.mem_cons.mp hx with heq | hmem
          · subst heq
            exact ⟨c, List.mem_cons_self c rest, by simpa using hmesh, rfl⟩
          · obtain ⟨p, hp, hhit, hform⟩ := ih _ hc x hmem
            exact ⟨p, List.mem_cons_of_mem c hp, hhit, hform⟩
        | none =>
          simp only [Bind.bind, Except.bind] at hcoll
          cases hcoll
          obtain ⟨p, hp, hhit, hform⟩ := ih _ hc x hx
          exact ⟨p, List.mem_cons_of_mem c hp, hhit, hform⟩

/-- The least narrow-phase hit distance among a candidate list (the distance
of the nearest blocking hit when every entity blocks). -/
def minPotential (nrm : Vec3Q → ℚ) (ray : Ray3dQ) : List (XF × RaycastEntityQ) → XF
  | [] => XF.posinf
  | p :: rest =>
    match meshHitOf nrm ray p.2 with
    | Except.ok (some i) => minXF (XF.fin i.distance) (minPotential nrm ray rest)
    | _ => minPotential nrm ray rest

theorem minPotential_ne_nan (nrm : Vec3Q → ℚ) (ray : Ray3dQ) :
    ∀ l : List (XF × RaycastEntityQ), minPotential nrm ray l ≠ XF.nan := by
  intro l
  induction l with
  | nil => simp [minPotential]
  | cons p rest ih =>
    unfold minPotential
    cases hm : meshHitOf nrm ray p.2 with
    | error u => exact ih
    | ok r =>
      cases r with
      | none => exact ih
      | some i =>
        simp only [minXF]
        split_ifs
        · simp
        · exact ih

theorem castRayLoop_always_early (nrm : Vec3Q → ℚ) (ray : Ray3dQ)
    (settings : RaycastSettingsQ) (hE : ∀ n, settings.earlyExitTest n = true) :
    ∀ (l : List (XF × RaycastEntityQ)) (hits0 : List (XF × (ℕ × IntersectionDataQ)))
      (nb0 : XF) (st' : List (XF × (ℕ × IntersectionDataQ)) × XF),
      (∀ p ∈ l, ∀ i, meshHitOf nrm ray p.2 = Except.ok (some i) →
        XF.toW p.1 ≤ XF.toW (XF.fin i.distance)) →
      castRayLoop nrm ray settings l (hits0, nb0) = Except.ok st' →
      XF.toW st'.2 = min (XF.toW nb0) (XF.toW (minPotential nrm ray l)) ∧
      (∀ p ∈ st'.1, p ∈ hits0 ∨ XF.toW (minPotential nrm ray l) ≤ XF.toW p.1) ∧
      (XF.toW (minPotential nrm ray l) < XF.toW nb0 →
        ∃ p ∈ st'.1, XF.toW p.1 = XF.toW (minPotential nrm ray l)) := by
  intro l
  induction l with
  | nil =>
    intro hits0 nb0 st' _ hloop
    cases hloop
    refine ⟨?_, fun p hp => Or.inl hp, ?_⟩
    · simp [minPotential, min_eq_left (le_toW_posinf _)]
    · intro hlt
      exact absurd hlt (not_lt.mpr (le_toW_posinf _))
  | cons c rest ih =>
    intro hits0 nb0 st' hgeom hloop
    obtain ⟨near, e⟩ := c
    have hgeomrest : ∀ p ∈ rest, ∀ i, meshHitOf nrm ray p.2 = Except.ok (some i) →
        XF.toW p.1 ≤ XF.toW (XF.fin i.distance) :=
      fun p hp => hgeom p (List.mem_cons_of_mem _ hp)
    unfold castRayLoop at hloop
    split_ifs at hloop with hskip
    · -- skipped: `nb0 < near`; by the geometric hypothesis the candidate's
      -- potential hit cannot be the overall minimum below `nb0`.
      obtain ⟨h1, h2, h3⟩ := ih hits0 nb0 st' hgeomrest hloop
      unfold minPotential
      cases hm : meshHitOf nrm ray e with
      | error u => exact ⟨h1, h2, h3⟩
      | ok r =>
        cases r with
        | none => exact ⟨h1, h2, h3⟩
        | some i =>
          have hge : XF.toW nb0 ≤ XF.toW (XF.fin i.distance) :=
            le_trans (le_of_lt hskip) (hgeom (near, e) (List.mem_cons_self _ _) i hm)
          simp only [toW_minXF]
          constructor
          · rw [h1, min_comm (XF.toW (XF.fin i.distance)) _, ← min_assoc]
            rw [min_eq_left (le_trans (min_le_left _ _) hge)]
          constructor
          · intro p hp
            rcases h2 p hp with hp0 | hple
            · exact Or.inl hp0
            · exact Or.inr (le_trans (min_le_right _ _) hple)
          · intro hlt
            rw [min_lt_iff] at hlt
            rcases hlt with hlt | hlt
            · exact absurd (lt_of_le_of_lt hge hlt) (lt_irrefl _)
            · obtain ⟨p, hp, hpe⟩ := h3 hlt
              refine ⟨p, hp, ?_⟩
              rw [hpe, min_eq_right (le_of_lt (lt_of_lt_of_le hlt hge))]
    · cases hmesh : meshHitOf nrm ray e with
      | error u => rw [hmesh] at hloop; simp [Bind.bind, Except.bind] at hloop
      | ok r =>
        rw [hmesh] at hloop
        simp only [Bind.bind, Except.bind] at hloop
        cases r with
        | none =>
          obtain ⟨h1, h2, h3⟩ := ih hits0 nb0 st' hgeomrest hloop
          unfold minPotential
          rw [hmesh]
          exact ⟨h1, h2, h3⟩
        | some i =>
          rw [hE e.entity] at hloop
          simp only [true_and] at hloop
          have hnb1 : XF.toW (if XF.toW (XF.fin i.distance) < XF.toW nb0 then
              minXF (XF.fin i.distance) nb0 else nb0) =
              min (XF.toW (XF.fin i.distance)) (XF.toW nb0) := by
            split_ifs with hlt
            · rw [toW_minXF]
            · rw [min_eq_right (not_lt.mp hlt)]
          obtain ⟨h1, h2, h3⟩ := ih (hits0 ++ [(XF.fin i.distance, (e.entity, i))]) _ st'
            hgeomrest hloop
          unfold minPotential
          rw [hmesh]
          rw [toW_minXF]
          refine ⟨?_, ?_, ?_⟩
          · rw [h1, hnb1]
            rw [← min_assoc, min_comm (XF.toW nb0) (XF.toW (XF.fin i.distance)), min_assoc]
          · intro p hp
            rcases h2 p hp with hp0 | hple
            · rcases List.mem_append.mp hp0 with hp0 | hp0
              · exact Or.inl hp0
              · rw [List.mem_singleton.mp hp0]
                exact Or.inr (min_le_left _ _)
            · exact Or.inr (le_trans (min_le_right _ _) hple)
          · intro hlt
            rcases le_or_lt (XF.toW (XF.fin i.distance)) (XF.toW (minPotential nrm ray rest))
              with hile | hgt
            · -- the head's own hit achieves the minimum; it was pushed.
              refine ⟨(XF.fin i.distance, (e.entity, i)), ?_, ?_⟩
              · obtain ⟨tl, htl⟩ := castRayLoop_hits_prefix nrm ray settings rest _ st' hloop
                rw [htl]
                exact List.mem_append.mpr (Or.inl (List.mem_append.mpr (Or.inr
                  (List.mem_singleton.mpr rfl))))
              · simp only [min_eq_left hile]
            · -- the minimum lies in the tail; use the induction hypothesis.
              have hminrest : XF.toW (minPotential nrm ray rest) <
                  XF.toW (if XF.toW (XF.fin i.distance) < XF.toW nb0 then
                    minXF (XF.fin i.distance) nb0 else nb0) := by
                rw [hnb1, lt_min_iff]
                constructor
                · exact hgt
                · rw [min_lt_iff] at hlt
                  rcases hlt with hlt | hlt
                  · exact lt_trans hgt hlt
                  · exact hlt
              obtain ⟨p, hp, hpe⟩ := h3 hminrest
              refine ⟨p, hp, ?_⟩
              rw [hpe, min_eq_right (le_of_lt hgt)]

set_option maxHeartbeats 4000000 in
theorem threeCubes_filtered_true_eval :
    castRayFiltered axisNorm rayCubes settingsTrue threeCubes =
      [(XF.fin 7, cubeEnt 1 3 (-3)), (XF.fin 8, cubeEnt 2 2 (-2)),
       (XF.fin 9, cubeEnt 3 1 (-1))] := by
  norm_num [castRayFiltered, castRayCulled, cullPhase, intersectsAabb, intersectsLocalAabb,
    slabTminx, slabTminy, slabTminz, slabTmaxx, slabTmaxy, slabTmaxz, slabT0x, slabT0y,
    slabT0z, slabT1x, slabT1y, slabT1z, XF.slabDiv, XF.fmin, XF.fmax, XF.blt, XF.ble,
    visiblePasses, Mat4Q.identityM, Mat4Q.inverse, Mat4Q.transformPoint3,
    Mat4Q.transformVector3, AabbQ.minC, AabbQ.maxC, Vec3Q.sub_def, Vec3Q.add_def, Vec3Q.dot, Vec3Q.cross, Vec3Q.smul, Vec3Q.lengthSq,
    Ray3dQ.position, Ray3dQ.mk_normalized,
    List.insertionSort, List.orderedInsert, List.filterMap, List.filter, threeCubes,
    cubeEnt, cubeMesh, rayCubes, settingsTrue, axisNorm, toW_fin_lt_fin, toW_fin_le_fin,
    le_toW_posinf, not_toW_posinf_lt, toW_fin_lt_posinf]

set_option maxHeartbeats 4000000 in
theorem threeCubes_filtered_false_eval :
    castRayFiltered axisNorm rayCubes settingsFalse threeCubes =
      [(XF.fin 7, cubeEnt 1 3 (-3)), (XF.fin 8, cubeEnt 2 2 (-2)),
       (XF.fin 9, cubeEnt 3 1 (-1))] := by
  norm_num [castRayFiltered, castRayCulled, cullPhase, intersectsAabb, intersectsLocalAabb,
    slabTminx, slabTminy, slabTminz, slabTmaxx, slabTmaxy, slabTmaxz, slabT0x, slabT0y,
    slabT0z, slabT1x, slabT1y, slabT1z, XF.slabDiv, XF.fmin, XF.fmax, XF.blt, XF.ble,
    visiblePasses, Mat4Q.identityM, Mat4Q.inverse, Mat4Q.transformPoint3,
    Mat4Q.transformVector3, AabbQ.minC, AabbQ.maxC, Vec3Q.sub_def, Vec3Q.add_def, Vec3Q.dot, Vec3Q.cross, Vec3Q.smul, Vec3Q.lengthSq,
    Ray3dQ.position, Ray3dQ.mk_normalized,
    List.insertionSort, List.orderedInsert, List.filterMap, List.filter, threeCubes,
    cubeEnt, cubeMesh, rayCubes, settingsFalse, axisNorm, toW_fin_lt_fin, toW_fin_le_fin,
    le_toW_posinf, not_toW_posinf_lt, toW_fin_lt_posinf]

set_option maxHeartbeats 4000000 in
theorem threeCubes_meshHit_eval :
    meshHitOf axisNorm rayCubes (cubeEnt 1 3 (-3)) = Except.ok (some (cubeHit (-3) 7)) ∧
    meshHitOf axisNorm rayCubes (cubeEnt 2 2 (-2)) = Except.ok (some (cubeHit (-2) 8)) ∧
    meshHitOf axisNorm rayCubes (cubeEnt 3 1 (-1)) = Except.ok (some (cubeHit (-1) 9)) := by
  refine ⟨?_, ?_, ?_⟩ <;>
  norm_num [meshHitOf, resolvedMesh, entityBackfaces, rayIntersectionOverMesh,
    rayMeshIntersection, meshSpaceRayOf, buildTrisNonIndexed, chunk3Panic, idxPanic,
    rayMeshIntersectionCore, rayMeshStep, triangleIntersection, raycastMollerTrumbore,
    worldIntersection, Ray3dQ.position, Ray3dQ.mk_normalized, Mat4Q.inverse, Mat4Q.identityM,
    Mat4Q.transformPoint3, Mat4Q.transformVector3, Vec3Q.sub_def, Vec3Q.add_def, Vec3Q.dot,
    Vec3Q.cross, Vec3Q.smul, Vec3Q.lengthSq, f32MAX, epsilonF, Bind.bind, Except.bind,
    Except.map, Option.getD, cubeEnt, cubeMesh, rayCubes, cubeHit, axisNorm]

theorem threeCubes_minPotential_eval :
    minPotential axisNorm rayCubes (castRayFiltered axisNorm rayCubes settingsTrue threeCubes)
      = XF.fin 7 := by
  obtain ⟨hm1, hm2, hm3⟩ := threeCubes_meshHit_eval
  rw [threeCubes_filtered_true_eval]
  norm_num [minPotential, hm1, hm2, hm3, minXF, cubeHit, toW_fin_le_fin, le_toW_posinf]

/-- **C4.** With `early_exit_test ≡ true` — and candidate AABBs that bound
their meshes, so a narrow-phase hit is never nearer than its AABB entry
distance — `cast_ray` returns exactly the hits at the least narrow-phase hit
distance, and at least one such hit when any exists.  With
`early_exit_test ≡ false` it returns every narrow-phase hit of every filtered
candidate, and nothing else.  In the spec's three-concentric-cubes scenario,
the first mode returns the single nearest-cube hit and the second returns all
three hits in strictly increasing distance order. -/
theorem cast_ray_early_exit (nrm : Vec3Q → ℚ) (ray : Ray3dQ)
    (settings : RaycastSettingsQ) (entities : List RaycastEntityQ) :
    ((∀ n, settings.earlyExitTest n = true) →
      (∀ p ∈ castRayFiltered nrm ray settings entities, ∀ i,
        meshHitOf nrm ray p.2 = Except.ok (some i) →
        XF.toW p.1 ≤ XF.toW (XF.fin i.distance)) →
      ∀ out, castRay nrm ray settings entities = Except.ok out →
        (∀ x ∈ out, XF.toW (XF.fin x.2.distance) =
          XF.toW (minPotential nrm ray (castRayFiltered nrm ray settings entities))) ∧
        (XF.toW (minPotential nrm ray (castRayFiltered nrm ray settings entities)) <
          XF.toW XF.posinf → out ≠ [])) ∧
    ((∀ n, settings.earlyExitTest n = false) →
      ∀ out, castRay nrm ray settings entities = Except.ok out →
        (∀ p ∈ castRayFiltered nrm ray settings entities, ∀ i,
          meshHitOf nrm ray p.2 = Except.ok (some i) → (p.2.entity, i) ∈ out) ∧
        (∀ x ∈ out, ∃ p ∈ castRayFiltered nrm ray settings entities,
          p.2.entity = x.1 ∧ meshHitOf nrm ray p.2 = Except.ok (some x.2))) ∧
    castRay axisNorm rayCubes settingsTrue threeCubes = Except.ok [(1, cubeHit (-3) 7)] ∧
    castRay axisNorm rayCubes settingsFalse threeCubes =
      Except.ok [(1, cubeHit (-3) 7), (2, cubeHit (-2) 8), (3, cubeHit (-1) 9)] := by
  refine ⟨?_, ?_, threeCubes_castRay_true_eval, threeCubes_castRay_false_eval⟩
  · intro hE hgeom out hout
    unfold castRay castRayRetained at hout
    cases hstate : castRayState nrm ray settings entities with
    | error u => rw [hstate] at hout; simp [Except.map] at hout
    | ok st =>
      rw [hstate] at hout
      simp only [Except.map] at hout
      cases hout
      obtain ⟨h1, h2, h3⟩ := castRayLoop_always_early nrm ray settings hE
        (castRayFiltered nrm ray settings entities) [] XF.posinf st hgeom hstate
      have hkeys := castRayLoop_key_inv nrm ray settings _ ([], XF.posinf) st (by simp) hstate
      have hst2 : XF.toW st.2 =
          XF.toW (minPotential nrm ray (castRayFiltered nrm ray settings entities)) := by
        rw [h1, min_eq_right (le_toW_posinf _)]
      constructor
      · intro x hx
        rw [List.mem_map] at hx
        obtain ⟨q, hq, hqx⟩ := hx
        have hq' : q ∈ st.1.filter (fun p => XF.toW p.1 ≤ XF.toW st.2) :=
          (List.perm_insertionSort
            (fun a b : XF × (ℕ × IntersectionDataQ) => XF.toW a.1 ≤ XF.toW b.1) _).mem_iff.mp hq
        have hqmem : q ∈ st.1 := List.mem_of_mem_filter hq'
        have hqle : XF.toW q.1 ≤ XF.toW st.2 := by
          simpa using List.of_mem_filter hq'
        rw [hst2] at hqle
        rcases h2 q hqmem with h2' | h2'
        · exact absurd h2' (List.not_mem_nil q)
        · rw [← hqx]
          have hqk := hkeys q hqmem
          calc XF.toW (XF.fin q.2.2.distance) = XF.toW q.1 := by rw [hqk]
            _ = _ := le_antisymm hqle h2'
      · intro hlt
        obtain ⟨p, hp, hpe⟩ := h3 hlt
        have hple : XF.toW p.1 ≤ XF.toW st.2 := by rw [hpe, hst2]
        have hpfil : p ∈ st.1.filter (fun p => XF.toW p.1 ≤ XF.toW st.2) :=
          List.mem_filter.mpr ⟨hp, by simpa using hple⟩
        have hpsort : p ∈ List.insertionSort
            (fun a b : XF × (ℕ × IntersectionDataQ) => XF.toW a.1 ≤ XF.toW b.1)
            (st.1.filter (fun p => XF.toW p.1 ≤ XF.toW st.2)) :=
          (List.perm_insertionSort _ _).mem_iff.mpr hpfil
        exact List.ne_nil_of_mem (List.mem_map_of_mem (fun p => p.2) hpsort)
  · intro hE out hout
    unfold castRay castRayRetained castRayState at hout
    rw [castRayLoop_never_early nrm ray settings hE
      (castRayFiltered nrm ray settings entities) []] at hout
    cases hc : collectHits nrm ray (castRayFiltered nrm ray settings entities) with
    | error u => rw [hc] at hout; simp [Except.map] at hout
    | ok hs =>
      rw [hc] at hout
      simp only [Except.map, List.nil_append] at hout
      cases hout
      have hfil : hs.filter (fun p => XF.toW p.1 ≤ XF.toW XF.posinf) = hs :=
        List.filter_eq_self.mpr (fun a _ => by simpa using le_toW_posinf a.1)
      constructor
      · intro p hp i hhit
        have hmem := collectHits_mem_of_hit nrm ray _ hs hc p hp i hhit
        have hsorted : (XF.fin i.distance, (p.2.entity, i)) ∈ List.insertionSort
            (fun a b : XF × (ℕ × IntersectionDataQ) => XF.toW a.1 ≤ XF.toW b.1)
            (hs.filter (fun p => XF.toW p.1 ≤ XF.toW XF.posinf)) := by
          rw [hfil]
          exact (List.perm_insertionSort _ _).mem_iff.mpr hmem
        exact List.mem_map_of_mem (fun p => p.2) hsorted
      · intro x hx
        rw [List.mem_map] at hx
        obtain ⟨q, hq, hqx⟩ := hx
        have hq' := (List.perm_insertionSort
          (fun a b : XF × (ℕ × IntersectionDataQ) => XF.toW a.1 ≤ XF.toW b.1) _).mem_iff.mp hq
        have hqs : q ∈ hs := List.mem_of_mem_filter hq'
        obtain ⟨p, hp, hhit, hform⟩ := collectHits_mem_source nrm ray _ hs hc q hqs
        refine ⟨p, hp, ?_, ?_⟩
        · rw [← hqx]
          have h21 : q.2.1 = p.2.entity := by rw [hform]
          rw [h21]
        · rw [← hqx]
          exact hhit

/-- C4 witness: the theorem instantiated at the three-cubes scenario, each
hypothesis discharged concretely. -/
theorem cast_ray_early_exit_witness :
    (∀ x ∈ [((1 : ℕ), cubeHit (-3) 7)],
      XF.toW (XF.fin x.2.distance) = XF.toW (minPotential axisNorm rayCubes
        (castRayFiltered axisNorm rayCubes settingsTrue threeCubes))) ∧
    ([((1 : ℕ), cubeHit (-3) 7)] : List (ℕ × IntersectionDataQ)) ≠ [] ∧
    ((3 : ℕ), cubeHit (-1) 9) ∈
      [((1 : ℕ), cubeHit (-3) 7), (2, cubeHit (-2) 8), (3, cubeHit (-1) 9)] := by
  obtain ⟨hm1, hm2, hm3⟩ := threeCubes_meshHit_eval
  have hgeom : ∀ p ∈ castRayFiltered axisNorm rayCubes settingsTrue threeCubes, ∀ i,
      meshHitOf axisNorm rayCubes p.2 = Except.ok (some i) →
      XF.toW p.1 ≤ XF.toW (XF.fin i.distance) := by
    intro p hp i hi
    rw [threeCubes_filtered_true_eval] at hp
    simp only [List.mem_cons, List.not_mem_nil, or_false] at hp
    rcases hp with hp | hp | hp <;> subst hp <;>
      simp only [hm1, hm2, hm3, Except.ok.injEq, Option.some.injEq] at hi <;>
      subst hi <;> norm_num [cubeHit, toW_fin_le_fin]
  have hA := (cast_ray_early_exit axisNorm rayCubes settingsTrue threeCubes).1
    (fun n => rfl) hgeom _ threeCubes_castRay_true_eval
  have hB := ((cast_ray_early_exit axisNorm rayCubes settingsFalse threeCubes).2.1
    (fun n => rfl) _ threeCubes_castRay_false_eval).1
  refine ⟨hA.1, hA.2 ?_, ?_⟩
  · rw [threeCubes_minPotential_eval]
    exact toW_fin_lt_posinf 7
  · exact hB (XF.fin 9, cubeEnt 3 1 (-1))
      (by rw [threeCubes_filtered_false_eval]; simp) (cubeHit (-1) 9) hm3

set_option maxHeartbeats 4000000 in
theorem threeCubes_retained_false_eval :
    castRayRetained axisNorm rayCubes settingsFalse threeCubes =
      Except.ok [(XF.fin 7, (1, cubeHit (-3) 7)), (XF.fin 8, (2, cubeHit (-2) 8)),
        (XF.fin 9, (3, cubeHit (-1) 9))] := by
  norm_num [castRayRetained, castRayState, castRayLoop, castRayFiltered,
    castRayCulled, cullPhase, intersectsAabb, intersectsLocalAabb, slabTminx, slabTminy,
    slabTminz, slabTmaxx, slabTmaxy, slabTmaxz, slabT0x, slabT0y, slabT0z, slabT1x, slabT1y,
    slabT1z, XF.slabDiv, XF.fmin, XF.fmax, XF.blt, XF.ble, visiblePasses, meshHitOf,
    resolvedMesh, entityBackfaces, rayIntersectionOverMesh, rayMeshIntersection,
    meshSpaceRayOf, buildTrisNonIndexed, chunk3Panic, idxPanic, rayMeshIntersectionCore,
    rayMeshStep, triangleIntersection, raycastMollerTrumbore, worldIntersection,
    Ray3dQ.position, Ray3dQ.mk_normalized, Mat4Q.inverse, Mat4Q.identityM,
    Mat4Q.transformPoint3, Mat4Q.transformVector3, AabbQ.minC, AabbQ.maxC, Vec3Q.sub_def,
    Vec3Q.add_def, Vec3Q.dot, Vec3Q.cross, Vec3Q.smul, Vec3Q.lengthSq, f32MAX, epsilonF,
    minXF, List.insertionSort, List.orderedInsert, List.filterMap, List.filter, List.map,
    Bind.bind, Except.bind, Except.map, Option.getD, threeCubes, cubeEnt, cubeMesh, rayCubes,
    settingsFalse, cubeHit, axisNorm, toW_fin_lt_fin, toW_fin_le_fin, le_toW_posinf,
    not_toW_posinf_lt, toW_fin_lt_posinf]

/-- C5 witness: the sortedness and stability clauses instantiated at the
three-cubes scenario. -/
theorem cast_ray_output_sorted_witness :
    List.Sorted (fun x y : ℕ × IntersectionDataQ => x.2.distance ≤ y.2.distance)
      [(1, cubeHit (-3) 7), (2, cubeHit (-2) 8), (3, cubeHit (-1) 9)] ∧
    List.Sublist [((1 : ℕ), cubeHit (-3) 7), (2, cubeHit (-2) 8)]
      [(1, cubeHit (-3) 7), (2, cubeHit (-2) 8), (3, cubeHit (-1) 9)] := by
  obtain ⟨hsort, hculled, hstable⟩ :=
    cast_ray_output_sorted axisNorm rayCubes settingsFalse threeCubes
  refine ⟨hsort _ threeCubes_castRay_false_eval, ?_⟩
  exact hstable _ (XF.fin 7, (1, cubeHit (-3) 7)) (XF.fin 8, (2, cubeHit (-2) 8))
    threeCubes_retained_false_eval
    (List.Sublist.cons₂ _ (List.Sublist.cons₂ _ (List.nil_sublist _)))
    (by norm_num [toW_fin_le_fin])
    _ threeCubes_castRay_false_eval

/-- **C8 counterexample.** Out-of-range accesses panic instead of being
dropped: an indexed mesh whose index *values* reach past the position buffer
makes `ray_mesh_intersection` panic (`positions[i]` on a one-vertex buffer
with indices `[0,1,2]`), and `MeshAccessor::get_triangle` panics on an
in-range triple whose index value is out of range of the vertex buffer —
refuting "without panicking" / "no panics". -/
theorem malformed_indices_counterexample :
    rayMeshIntersection axisNorm Mat4Q.identityM [⟨0, 0, 0⟩] none rayUnitTest
      (some [0, 1, 2]) Backfaces.Cull = Except.error () ∧
    MeshAccessorQ.getTriangle ⟨[⟨0, 0, 0⟩], none, some [0, 5, 0]⟩ 0 = Except.error () := by
  constructor
  · rfl
  · rfl

/-- An entity in the ray's path whose mesh has a malformed index list
(length 1, not a multiple of three). -/
def badEnt : RaycastEntityQ :=
  ⟨7, true, true, ⟨⟨0, 0, 0⟩, ⟨4, 4, 4⟩⟩, Mat4Q.identityM,
    ⟨true, [⟨-4, -5, 10⟩, ⟨-4, 10, -5⟩, ⟨-4, -5, -5⟩], none, some [0]⟩, none, false⟩

set_option maxHeartbeats 4000000 in
theorem badEnt_castRay_eval :
    castRay axisNorm rayCubes settingsFalse (badEnt :: threeCubes) =
      Except.ok [(1, cubeHit (-3) 7), (2, cubeHit (-2) 8), (3, cubeHit (-1) 9)] := by
  norm_num [castRay, castRayRetained, castRayState, castRayLoop, castRayFiltered,
    castRayCulled, cullPhase, intersectsAabb, intersectsLocalAabb, slabTminx, slabTminy,
    slabTminz, slabTmaxx, slabTmaxy, slabTmaxz, slabT0x, slabT0y, slabT0z, slabT1x, slabT1y,
    slabT1z, XF.slabDiv, XF.fmin, XF.fmax, XF.blt, XF.ble, visiblePasses, meshHitOf,
    resolvedMesh, entityBackfaces, rayIntersectionOverMesh, rayMeshIntersection, chunk3,
    buildTrisIndexed, fetchTriIndexed, idxPanic,
    meshSpaceRayOf, buildTrisNonIndexed, chunk3Panic, rayMeshIntersectionCore,
    rayMeshStep, triangleIntersection, raycastMollerTrumbore, worldIntersection,
    Ray3dQ.position, Ray3dQ.mk_normalized, Mat4Q.inverse, Mat4Q.identityM,
    Mat4Q.transformPoint3, Mat4Q.transformVector3, AabbQ.minC, AabbQ.maxC, Vec3Q.sub_def,
    Vec3Q.add_def, Vec3Q.dot, Vec3Q.cross, Vec3Q.smul, Vec3Q.lengthSq, f32MAX, epsilonF,
    minXF, List.insertionSort, List.orderedInsert, List.filterMap, List.filter, List.map,
    Bind.bind, Except.bind, Except.map, Option.getD, threeCubes, badEnt, cubeEnt, cubeMesh,
    rayCubes, settingsFalse, cubeHit, axisNorm, toW_fin_lt_fin, toW_fin_le_fin,
    le_toW_posinf, not_toW_posinf_lt, toW_fin_lt_posinf]

/-- **C8 (amended).** An index list whose length is not a multiple of three is
dropped (with a warning): the mesh yields no hit and no panic, and the other
meshes of the same query still produce their hits — concretely, adding a
malformed-index box in front of the three-cubes scenario leaves the query's
output unchanged.  A triangle request whose triple reaches past the index
buffer yields the deterministic `none`.  Out-of-range index *values* into the
position buffer, however, panic (see the counterexample). -/
theorem malformed_indices_amended :
    (∀ (nrm : Vec3Q → ℚ) (M : Mat4Q) (verts : List Vec3Q)
       (normals : Option (List Vec3Q)) (ray : Ray3dQ) (idx : List ℕ) (bf : Backfaces),
      idx.length % 3 ≠ 0 →
      rayMeshIntersection nrm M verts normals ray (some idx) bf = Except.ok none) ∧
    (∀ (m : MeshAccessorQ) (idx : List ℕ) (index : ℕ), m.indices = some idx →
      idx.length ≤ index * 3 + 2 →
      MeshAccessorQ.getTriangle m index = Except.ok none) ∧
    castRay axisNorm rayCubes settingsFalse (badEnt :: threeCubes) =
      Except.ok [(1, cubeHit (-3) 7), (2, cubeHit (-2) 8), (3, cubeHit (-1) 9)] := by
  refine ⟨?_, ?_, badEnt_castRay_eval⟩
  · intro nrm M verts normals ray idx bf h
    unfold rayMeshIntersection
    simp [h]
  · intro m idx index hm hlen
    unfold MeshAccessorQ.getTriangle
    rw [hm]
    simp [hlen]

/-- C8 witness: the amended theorem applied at a one-element index list and at
a triple request past a three-entry index buffer. -/
theorem malformed_indices_amended_witness :
    (([0] : List ℕ).length % 3 ≠ 0 ∧
      rayMeshIntersection axisNorm Mat4Q.identityM [⟨0, 0, 0⟩] none rayUnitTest (some [0])
        Backfaces.Cull = Except.ok none) ∧
    ((⟨[⟨0, 0, 0⟩], none, some [0, 1, 2]⟩ : MeshAccessorQ).indices = some [0, 1, 2] ∧
      ([0, 1, 2] : List ℕ).length ≤ 1 * 3 + 2 ∧
      MeshAccessorQ.getTriangle ⟨[⟨0, 0, 0⟩], none, some [0, 1, 2]⟩ 1 = Except.ok none) := by
  obtain ⟨h1, h2, h3⟩ := malformed_indices_amended
  exact ⟨⟨by norm_num, h1 axisNorm Mat4Q.identityM [⟨0, 0, 0⟩] none rayUnitTest [0]
      Backfaces.Cull (by norm_num)⟩,
    rfl, by norm_num,
    h2 ⟨[⟨0, 0, 0⟩], none, some [0, 1, 2]⟩ [0, 1, 2] 1 rfl (by norm_num)⟩
